import Mathlib

set_option autoImplicit false

/-!
Verification development for the `atoml` style-preserving TOML document model
(`container.py`, `items.py`).  The Python data model and operations are
shallowly embedded as executable Lean definitions: containers are records of
the three parallel structures (`body`, key index `map`, `tableKeys`) plus the
dict-style shadow map; in-place mutation becomes explicit state threading, and
raised exceptions become error results that carry the state at the moment of
the raise (so "the container is left unchanged on failure" is expressible).
Recursion through nested containers (table merging, proxy construction,
host-value coercion) is made total with an explicit fuel parameter; running
out of fuel is a distinguished outcome, never silently conflated with the
program's own errors.
-/

namespace Atoml

/-- Trivia (items.py:189): per-item formatting metadata.  `Trivia()` defaults
every field to `""` except `trail`, which defaults to `"\n"`. -/
structure Trivia where
  indent : String
  commentWs : String
  comment : String
  trail : String
deriving Repr, DecidableEq

/-- The Python default `Trivia()`. -/
def Trivia.mkDefault : Trivia :=
  ⟨"", "", "", "\n"⟩

/-- Key (items.py:227).  Equality and hashing use only `key` (the logical
name); `sep`, `dotted` and `original` (the exact lexical rendering) ride
along.  The `KeyType` inference and quote escaping of the constructor are
folded into `KeyS.bare` below for the bare keys the claims use. -/
structure KeyS where
  key : String
  sep : String
  dotted : Bool
  original : String
deriving Repr, DecidableEq

/-- `Key(k)` for a bare key `k` (letters/digits/`-`/`_`): the original
lexical form is the name itself and the separator defaults to `" = "`. -/
def KeyS.bare (k : String) : KeyS :=
  ⟨k, " = ", false, k⟩

/-- An index entry of `Container._map` (container.py:21): a single body
position, or a bucket (Python tuple) of positions for a key with several
physical fragments. -/
inductive IdxE where
  | one (i : Nat)
  | many (is : List Nat)
deriving Repr, DecidableEq

/-- All body positions of an index entry, in tuple order. -/
def IdxE.toList : IdxE → List Nat
  | .one i => [i]
  | .many is => is

/-- `current_idx[-1]` (container.py:100-104): the last tuple element (an
empty tuple raises `IndexError`, hence the option). -/
def IdxE.lastPos : IdxE → Option Nat
  | .one i => some i
  | .many is => is.getLast?

/-- `max(idx)` of `_insert_after` (container.py:271-272): the maximum over
a bucket (`max(())` raises `ValueError`, hence the option). -/
def IdxE.resolveMax : IdxE → Option Nat
  | .one i => some i
  | .many is => is.max?

mutual

/-- The item taxonomy (items.py).  Each constructor carries exactly the state
the Python object of that class holds:
* `ws` — `Whitespace` (string and `fixed` flag; it has no `Trivia`:
  accessing `trivia` raises, see `Item.triviaOf`);
* `comment` — `Comment` (its text lives in its trivia);
* `boolItem` — `Bool` (`_value` and trivia);
* `integer` — `Integer` (`int` value, trivia, `_raw`, `_sign` — the flag
  computed by `__init__` from the raw form);
* `stringItem` — `String` (decoded value, trivia, `_original`);
* `arrayItem` — `Array` (`_value`: the interleaved item list; `publ`: the
  contents of the underlying native `list` of element values; trivia;
  `_multiline`.  The index map `_index_map` is recomputed by `_reindex`
  from `_value`, so it is derived on demand here);
* `inlineTable` — `InlineTable` (container, trivia, `_new` flag);
* `table` — `Table` (container, trivia, `_is_aot_element`,
  `_is_super_table`, `name`, `display_name`.  The dict view a `Table`
  maintains over its container's keyed items is derived from the body);
* `aot` — `AoT` (list of tables, `name`, `_parsed`, trivia — the
  constructor passes `Trivia(trail="")`);
* `nullItem` — `Null`, the tombstone. -/
inductive Item where
  | ws (s : String) (fixed : Bool)
  | comment (trivia : Trivia)
  | boolItem (value : Bool) (trivia : Trivia)
  | integer (value : Int) (trivia : Trivia) (raw : String) (sign : Bool)
  | stringItem (value : String) (trivia : Trivia) (original : String)
  | arrayItem (valueList : List Item) (publ : List PyVal) (trivia : Trivia) (multiline : Bool)
  | inlineTable (value : ContainerS) (trivia : Trivia) (isNew : Bool)
  | table (value : ContainerS) (trivia : Trivia) (aotElem : Bool) (superT : Bool)
      (name : Option String) (displayName : Option String)
  | aot (tables : List Item) (name : Option String) (parsed : Bool) (trivia : Trivia)
  | nullItem

/-- The result of the Python `.value` projection, as stored in the
container's dict-style shadow map and in an `Array`'s native list: most items
return themselves (`obj`), `Bool` returns the native bool, `Table` and
`InlineTable` return their container, `Whitespace` its string, `Null`
`None`. -/
inductive PyVal where
  | obj (it : Item)
  | nbool (b : Bool)
  | ncontainer (c : ContainerS)
  | nstr (s : String)
  | nnone

/-- Container state (container.py:20-24): key index `cmap` (keyed by the
key's logical name; Python also admits `None` as a key there, hence
`Option String`), ordered `cbody`, the `parsed` flag, `table_keys`, and the
dict-style shadow map from key names to `.value` projections. -/
inductive ContainerS where
  | mk (cmap : List (Option String × IdxE)) (cbody : List (Option KeyS × Item))
      (cparsed : Bool) (ctableKeys : List (Option KeyS)) (cshadow : List (String × PyVal))

end

namespace ContainerS

def cmap : ContainerS → List (Option String × IdxE)
  | .mk m _ _ _ _ => m

def cbody : ContainerS → List (Option KeyS × Item)
  | .mk _ b _ _ _ => b

def cparsed : ContainerS → Bool
  | .mk _ _ p _ _ => p

def ctableKeys : ContainerS → List (Option KeyS)
  | .mk _ _ _ t _ => t

def cshadow : ContainerS → List (String × PyVal)
  | .mk _ _ _ _ s => s

end ContainerS

/-- `Container(parsed)`: all structures empty. -/
def emptyContainer (parsed : Bool) : ContainerS :=
  .mk [] [] parsed [] []

/-- The exceptions the embedded code can raise, plus `noFuel` for the fuel
bound of the recursive operations (never conflated with a program error). -/
inductive AErr where
  | keyAlreadyPresent
  | nonExistentKey
  | valueError
  | atomlError
  | runtimeError
  | attrError
  | indexError
  | keyError
  | typeError
  | noFuel
deriving Repr, DecidableEq

/-- Result of a mutating container operation: `ok` with the new state, or
`err` carrying the exception together with the container state at the moment
of the raise (Python mutates in place, so a raise can leave earlier updates
behind; threading the state makes that observable). -/
inductive CRes where
  | ok (s : ContainerS)
  | err (e : AErr) (s : ContainerS)

/-- The container state a result carries, error or not. -/
def CRes.state : CRes → ContainerS
  | .ok s => s
  | .err _ s => s

namespace Item

/-- `isinstance(item, Whitespace)`. -/
def isWs : Item → Bool
  | .ws _ _ => true
  | _ => false

/-- `isinstance(item, Comment)`. -/
def isComment : Item → Bool
  | .comment _ => true
  | _ => false

/-- `isinstance(item, Null)`. -/
def isNull : Item → Bool
  | .nullItem => true
  | _ => false

/-- `isinstance(item, (Table, AoT))`. -/
def tableLike : Item → Bool
  | .table .. => true
  | .aot .. => true
  | _ => false

/-- `item.is_table()` (items.py:331): `isinstance(self, Table)` only. -/
def isTable : Item → Bool
  | .table .. => true
  | _ => false

/-- `item.is_aot()` (items.py:337). -/
def isAot : Item → Bool
  | .aot .. => true
  | _ => false

/-- `item.is_boolean()` (items.py:328). -/
def isBoolean : Item → Bool
  | .boolItem .. => true
  | _ => false

/-- `table.is_aot_element()`; `False` for anything that is not a `Table`. -/
def isAotElement : Item → Bool
  | .table _ _ ae _ _ _ => ae
  | _ => false

/-- `table.is_super_table()`; `False` for anything that is not a `Table`. -/
def isSuperTable : Item → Bool
  | .table _ _ _ st _ _ => st
  | _ => false

/-- `whitespace.is_fixed()` (items.py:375). -/
def isFixedWs : Item → Bool
  | .ws _ fixed => fixed
  | _ => false

/-- `item.trivia`: `Whitespace` raises `RuntimeError` (items.py:369) and
`Null` never sets `_trivia` (items.py:1506), so reading it raises
`AttributeError`; every other variant returns its trivia. -/
def triviaE : Item → Except AErr Trivia
  | .ws _ _ => .error .runtimeError
  | .nullItem => .error .attrError
  | .comment t => .ok t
  | .boolItem _ t => .ok t
  | .integer _ t _ _ => .ok t
  | .stringItem _ t _ => .ok t
  | .arrayItem _ _ t _ => .ok t
  | .inlineTable _ t _ => .ok t
  | .table _ t _ _ _ _ => .ok t
  | .aot _ _ _ t => .ok t

/-- Replace the trivia of an item that has one (`Whitespace`/`Null`, which
have none, are returned unchanged — callers consult `triviaE` first, exactly
where the Python code would raise). -/
def withTrivia (f : Trivia → Trivia) : Item → Item
  | .comment t => .comment (f t)
  | .boolItem b t => .boolItem b (f t)
  | .integer v t r sg => .integer v (f t) r sg
  | .stringItem v t o => .stringItem v (f t) o
  | .arrayItem vl p t m => .arrayItem vl p (f t) m
  | .inlineTable c t n => .inlineTable c (f t) n
  | .table c t ae st n d => .table c (f t) ae st n d
  | .aot ts n p t => .aot ts n p (f t)
  | it => it

/-- `item.name` for `Table`/`AoT` (reading it on other items raises
`AttributeError`; callers only do so on tables and AoTs). -/
def nameOf : Item → Option String
  | .table _ _ _ _ n _ => n
  | .aot _ n _ _ => n
  | _ => none

/-- Set `item.name` on a `Table` or `AoT`; identity elsewhere. -/
def setName (n : Option String) : Item → Item
  | .table c t ae st _ d => .table c t ae st n d
  | .aot ts _ p t => .aot ts n p t
  | it => it

/-- The `.value` projection (what `dict.__setitem__(self, key.key,
item.value)` stores in the shadow map): `Bool` unwraps to the native bool,
`Table`/`InlineTable` to their container, `Whitespace` to its string, `Null`
to `None`; every other item returns itself. -/
def pyValue : Item → PyVal
  | .boolItem b _ => .nbool b
  | .table c _ _ _ _ _ => .ncontainer c
  | .inlineTable c _ _ => .ncontainer c
  | .ws s _ => .nstr s
  | .nullItem => .nnone
  | it => .obj it

end Item

/-- An entry the placement scan of `append` skips (container.py:179-183):
`Null` tombstones and non-fixed `Whitespace`. -/
def skipItem (it : Item) : Bool :=
  it.isNull || (it.isWs && !it.isFixedWs)

/-! ### Association-list helpers

`Container._map` is a Python dict keyed by `Key` objects (hash and equality
on the key name, with `None` admitted as a key); the shadow map is a dict
keyed by plain strings.  Both are modelled as insertion-ordered association
lists: lookup finds the first (unique) binding, an update replaces it in
place, an insert appends at the end. -/

/-- Dict lookup. -/
def alLookup {κ : Type} [DecidableEq κ] {β : Type} (l : List (κ × β)) (k : κ) : Option β :=
  match l.find? (fun e => e.1 = k) with
  | some e => some e.2
  | none => none

/-- Dict `d[k] = v`: replace the existing binding in place, else append. -/
def alSet {κ : Type} [DecidableEq κ] {β : Type} (l : List (κ × β)) (k : κ) (v : β) :
    List (κ × β) :=
  match l with
  | [] => [(k, v)]
  | e :: rest => if e.1 = k then (k, v) :: rest else e :: alSet rest k v

/-- Dict `del d[k]` / `d.pop(k)`: drop the binding. -/
def alDel {κ : Type} [DecidableEq κ] {β : Type} (l : List (κ × β)) (k : κ) :
    List (κ × β) :=
  match l with
  | [] => []
  | e :: rest => if e.1 = k then rest else e :: alDel rest k

/-- Map every value of the dict in place. -/
def alMapVal {κ : Type} {β : Type} (f : β → β) (l : List (κ × β)) : List (κ × β) :=
  l.map (fun e => (e.1, f e.2))

/-- Python `list.insert`, which clamps an index past the end (contrast
`List.insertIdx`, which leaves the list unchanged there). -/
def pyInsert {α : Type} (l : List α) (n : Nat) (x : α) : List α :=
  l.insertIdx (min n l.length) x

/-- The index shift `_insert_at`/`_insert_after` apply to one index entry:
single positions satisfying `cond` and, element-wise, bucket positions
satisfying `cond` are incremented (container.py:277-289, 318-330). -/
def IdxE.shift (cond : Nat → Bool) : IdxE → IdxE
  | .one i => .one (if cond i then i + 1 else i)
  | .many is => .many (is.map (fun i => if cond i then i + 1 else i))

namespace ContainerS

/-- `self._map[key]` (`key` hashed by its name; `none` models Python's
`None` key). -/
def mapLookup (s : ContainerS) (k : Option String) : Option IdxE :=
  alLookup s.cmap k

/-- `key in self`: membership in the dict-style shadow view, which hashes a
`Key` like its plain name string. -/
def shadowHas (s : ContainerS) (k : String) : Bool :=
  (alLookup s.cshadow k).isSome

def withMap (s : ContainerS) (m : List (Option String × IdxE)) : ContainerS :=
  .mk m s.cbody s.cparsed s.ctableKeys s.cshadow

def withBody (s : ContainerS) (b : List (Option KeyS × Item)) : ContainerS :=
  .mk s.cmap b s.cparsed s.ctableKeys s.cshadow

def withTableKeys (s : ContainerS) (t : List (Option KeyS)) : ContainerS :=
  .mk s.cmap s.cbody s.cparsed t s.cshadow

def withShadow (s : ContainerS) (sh : List (String × PyVal)) : ContainerS :=
  .mk s.cmap s.cbody s.cparsed s.ctableKeys sh

/-- `Container._previous_item_with_index` (container.py:655) with the default
arguments used by `append`: the last body entry that is not a `Null`. -/
def previousItemWithIndex (s : ContainerS) : Option (Nat × Item) :=
  s.cbody.enum.foldl
    (fun acc e => if e.2.2.isNull then acc else some (e.1, e.2.2)) none

/-- `Container._previous_item` (container.py:667). -/
def previousItem (s : ContainerS) : Option Item :=
  (s.previousItemWithIndex).map (·.2)

end ContainerS

/-- `ends_with_withespace` (container.py:758): a `Table` whose container's
previous item is a `Whitespace`, or a non-empty `AoT` whose last element is a
`Whitespace` (the elements of an `AoT` are tables, so the second disjunct is
never true, exactly as in the source). -/
def endsWithWithespace : Item → Bool
  | .table c _ _ _ _ _ =>
    match c.previousItem with
    | some it => it.isWs
    | none => false
  | .aot ts _ _ _ =>
    decide (0 < ts.length) &&
      (match ts.getLast? with
       | some it => it.isWs
       | none => false)
  | _ => false

/-- `ends_with_withespace` applied to the result of `_previous_item`, which
may be `None` (`isinstance(None, Table)` is false). -/
def endsWithWithespaceOpt : Option Item → Bool
  | some it => endsWithWithespace it
  | none => false

/-! ### Regex helpers for the indent inheritance

Two patterns appear in items.py: `"(?s)^[^ ]*([ ]+).*$"` (match iff the
string contains a space; group 1 is the first maximal run of spaces) and
`"(?s)^([^ ]*)(.*)$"` (always matches; group 1 is the maximal leading run of
non-space characters, group 2 the rest). -/

/-- Group 1 of `re.match("(?s)^[^ ]*([ ]+).*$", s)`: the first maximal run
of spaces of `s`, or `none` when `s` has no space. -/
def firstSpaceRun (s : String) : Option String :=
  let rec go : List Char → Option (List Char)
    | [] => none
    | c :: rest => if c = ' ' then some (c :: rest.takeWhile (· = ' ')) else go rest
  (go s.data).map (fun cs => ⟨cs⟩)

/-- `re.match("(?s)^([^ ]*)(.*)$", s)`: leading non-space run and the rest. -/
def splitLeadNonSpace (s : String) : String × String :=
  (⟨s.data.takeWhile (· ≠ ' ')⟩, ⟨s.data.dropWhile (· ≠ ' ')⟩)

/-- The indent rewrite shared by `Table.append` (items.py:1097-1102),
`Table.__setitem__`, `InlineTable.__setitem__` and `AoT.insert`: splice the
inherited space run after the child's leading non-space run. -/
def spliceIndent (inherited : String) (indent : String) : String :=
  let p := splitLeadNonSpace indent
  p.1 ++ inherited ++ p.2

/-! ### Pure container operations -/

namespace ContainerS

/-- `Container._insert_at` (container.py:299).  The key and item arrive
already coerced (`Key(key)` / `_item(item)` are identities on typed
inputs). -/
def insertAtC (s : ContainerS) (idx : Nat) (key : KeyS) (item : Item) : CRes :=
  -- `if idx > len(self._body) - 1`: over Python ints this is `idx >= len`.
  if s.cbody.length ≤ idx then .err .valueError s else
  -- Fix the trail of the previous item (container.py:308-316); the
  -- disjunction short-circuits exactly as the Python `or` chain, reading
  -- `previous_item.trivia` only in the last disjunct.
  let step1 : Except AErr ContainerS :=
    if 0 < idx then
      match s.cbody[idx - 1]? with
      | none => .error .indexError
      | some prev =>
        if prev.2.isWs || endsWithWithespace prev.2 || item.tableLike then .ok s
        else
          match prev.2.triviaE with
          | .error e => .error e
          | .ok t =>
            if t.trail.contains '\n' then .ok s
            else .ok (s.withBody (s.cbody.set (idx - 1)
              (prev.1, prev.2.withTrivia (fun t => { t with trail := t.trail ++ "\n" }))))
    else .ok s
  match step1 with
  | .error e => .err e s
  | .ok s =>
    -- Increment indices `>= idx` (container.py:318-330), bucket entries
    -- element-wise; then bind the key and insert.
    let m := alMapVal (IdxE.shift (fun v => decide (idx ≤ v))) s.cmap
    let m := alSet m (some key.key) (.one idx)
    let s := (s.withMap m).withBody (pyInsert s.cbody idx (some key, item))
    .ok (s.withShadow (alSet s.cshadow key.key item.pyValue))

/-- `Container._insert_after` (container.py:252). -/
def insertAfterC (s : ContainerS) (key : Option KeyS) (otherKey : KeyS) (item : Item) :
    CRes :=
  match key with
  | none => .err .valueError s
  | some key =>
    if !s.shadowHas key.key then .err .nonExistentKey s else
    match s.mapLookup (some key.key) with
    | none => .err .keyError s  -- `self._map[key]` on a stale shadow entry
    | some e =>
      match e.resolveMax with
      | none => .err .valueError s
      | some idx =>
        match s.cbody[idx]? with
        | none => .err .indexError s
        | some cur =>
          match cur.2.triviaE with
          | .error er => .err er s
          | .ok t =>
            let s :=
              if t.trail.contains '\n' then s
              else s.withBody (s.cbody.set idx
                (cur.1, cur.2.withTrivia (fun t => { t with trail := t.trail ++ "\n" })))
            -- Increment indices `> idx` (container.py:277-289).
            let m := alMapVal (IdxE.shift (fun v => decide (idx < v))) s.cmap
            let m := alSet m (some otherKey.key) (.one (idx + 1))
            let s := (s.withMap m).withBody (pyInsert s.cbody (idx + 1) (some otherKey, item))
            .ok (s.withShadow (alSet s.cshadow otherKey.key item.pyValue))

/-- The tombstoning loop of `Container.remove` followed by the shadow-map
delete (`dict.__delitem__` raises `KeyError` if the name is absent). -/
def tombRemove (k : KeyS) (s : ContainerS) : List Nat → CRes
  | [] =>
    if s.shadowHas k.key then .ok (s.withShadow (alDel s.cshadow k.key))
    else .err .keyError s
  | p :: rest =>
    if p < s.cbody.length then
      tombRemove k (s.withBody (s.cbody.set p (none, .nullItem))) rest
    else .err .indexError s

/-- `Container.remove` (container.py:234): pop the index entry, tombstone
every recorded body position, delete the key from the shadow map.  A raise
mid-way (position out of range, or the shadow missing the key) leaves the
mutations made so far behind, exactly as in Python. -/
def removeC (s : ContainerS) (k : KeyS) : CRes :=
  match s.mapLookup (some k.key) with
  | none => .err .nonExistentKey s
  | some e =>
    let s := s.withMap (alDel s.cmap (some k.key))
    tombRemove k s e.toList

/-- The result of the placement scan of `append` (container.py:177-188):
`key_after` ends up `None`, a `Key`, or an `int` (the position of a keyless
non-skipped entry; `k or i` picks the key whenever the entry has one —
`Key` objects are always truthy). -/
inductive KeyAfter where
  | byKey (k : KeyS)
  | byIdx (i : Nat)
deriving Repr

/-- The scan loop of container.py:178-188: walk the body, skip `Null` and
non-fixed `Whitespace`, break at the first `Table`/`AoT` when the appended
item is not a table, and remember the last surviving entry. -/
def keyAfterScan (isTable : Bool) : List (Option KeyS × Item) → Nat → Option KeyAfter →
    Option KeyAfter
  | [], _, acc => acc
  | e :: rest, i, acc =>
    if e.2.isNull then keyAfterScan isTable rest (i + 1) acc
    else if e.2.isWs && !e.2.isFixedWs then keyAfterScan isTable rest (i + 1) acc
    else if !isTable && e.2.tableLike then acc
    else
      keyAfterScan isTable rest (i + 1)
        (some (match e.1 with
          | some k => .byKey k
          | none => .byIdx i))

end ContainerS

/-- `AoT.insert` (items.py:1452) acting on the fields of an `aot` item:
index normalisation, the indent splice when the AoT's own indent carries a
space run, the newline insertion between unparsed sibling tables, and the
actual insertion.  Raises `ValueError` on a non-`Table` value.  Returns the
updated field contents. -/
def aotInsert (tables : List Item) (parsed : Bool) (trivia : Trivia)
    (index : Int) (value : Item) : Except AErr (List Item) :=
  match value with
  | .table vc vt vae vst vn vd =>
    let length : Int := tables.length
    let index := if index < 0 then index + length else index
    let index : Nat := if index < 0 then 0 else min index.toNat tables.length
    let vt :=
      match firstSpaceRun trivia.indent with
      | some ind => { vt with indent := spliceIndent ind vt.indent }
      | none => vt
    let prevTable := if 0 < index && 0 < tables.length then tables[index - 1]? else none
    let nextIdx := if index + 1 < tables.length then some (index + 1) else none
    let vt :=
      if !parsed && prevTable.isSome && !vt.indent.contains '\n' then
        { vt with indent := "\n" ++ vt.indent }
      else vt
    let tables :=
      if !parsed then
        match nextIdx with
        | some j =>
          match tables[j]? with
          | some nt =>
            match nt.triviaE with
            | .ok t =>
              if !t.indent.contains '\n' then
                tables.set j (nt.withTrivia (fun t => { t with indent := "\n" ++ t.indent }))
              else tables
            | .error _ => tables
          | none => tables
        | none => tables
      else tables
    .ok (pyInsert tables index (.table vc vt vae vst vn vd))
  | _ => .error .valueError

/-- Python's `!=` on the optional key objects compared by `append`
(container.py:135): `Key` equality is by name; a `Key` never equals `None`;
`None` equals `None`. -/
def keyPyEqOpt : Option KeyS → Option KeyS → Bool
  | some a, some b => a.key == b.key
  | none, none => true
  | _, _ => false

namespace ContainerS

/-- Lines 208-232 of `append`: the final plain append.  Note the quirk of
lines 209-221: a bucketed index entry is first flattened to its *last*
position, so the updated entry is `(last, len)` — earlier bucket entries are
dropped from the index. -/
def plainAppend (s : ContainerS) (key : Option KeyS) (item : Item) : CRes :=
  let kname : Option String := key.map (·.key)
  match s.mapLookup kname with
  | some curIdx =>
    match curIdx.lastPos with
    | none => .err .indexError s
    | some last =>
      match s.cbody[last]? with
      | none => .err .indexError s
      | some cbe =>
        if key.isSome && !cbe.2.isTable then .err .keyAlreadyPresent s
        else
          let m := alSet s.cmap kname (.many [last, s.cbody.length])
          let s := (s.withMap m).withBody (s.cbody ++ [(key, item)])
          let s := if item.isTable then s.withTableKeys (s.ctableKeys ++ [key]) else s
          let s := match key with
            | some k => s.withShadow (alSet s.cshadow k.key item.pyValue)
            | none => s
          .ok s
  | none =>
    let m := alSet s.cmap kname (.one s.cbody.length)
    let s := (s.withMap m).withBody (s.cbody ++ [(key, item)])
    let s := if item.isTable then s.withTableKeys (s.ctableKeys ++ [key]) else s
    let s := match key with
      | some k => s.withShadow (alSet s.cshadow k.key item.pyValue)
      | none => s
    .ok s

/-- Lines 171-206 of `append`: the auto-layout placement of a keyed item
into a non-empty unparsed container (scan for `key_after`, then
`_insert_at`/`_insert_after`/plain append), falling back to the plain append
everywhere else. -/
def placementAppend (s : ContainerS) (key : Option KeyS) (item : Item) : CRes :=
  let isT := item.tableLike
  match key with
  | some k =>
    if !s.cbody.isEmpty && !s.cparsed then
      match keyAfterScan isT s.cbody 0 none with
      | some (.byIdx i) =>
        if i + 1 < s.cbody.length then insertAtC s (i + 1) k item
        else
          -- lines 195-202: give the very last item a trailing newline
          match s.cbody.getLast? with
          | none => plainAppend s key item
          | some prevE =>
            if prevE.2.isWs || endsWithWithespace prevE.2 || isT then plainAppend s key item
            else match prevE.2.triviaE with
              | .error e => .err e s
              | .ok t =>
                if t.trail.contains '\n' then plainAppend s key item
                else
                  plainAppend (s.withBody (s.cbody.set (s.cbody.length - 1)
                    (prevE.1, prevE.2.withTrivia (fun t => { t with trail := t.trail ++ "\n" }))))
                    key item
      | some (.byKey ak) => insertAfterC s (some ak) k item
      | none => insertAtC s 0 k item
    else plainAppend s key item
  | none => plainAppend s key item

end ContainerS

/-- `OutOfOrderTableProxy` state (container.py:677): the internal container
(constructed with `parsed=True`), the table fragments, and the two routing
maps.  The proxy's own dict view is derived and not stored. -/
structure ProxyS where
  internal : ContainerS
  tables : List Item
  tablesMap : List (Option String × Nat)
  pmap : List (Option String × Nat)

/-- Splice the inherited indent into the item at `pos` of the body (the
modelling of the post-append in-place indent rewrite of `Table.append` /
`Table.__setitem__`: Python mutates the very object it just appended, which
by aliasing is the body entry at the position where the append put it). -/
def mungeIndentAt (c : ContainerS) (pos : Nat) (ind : String) : ContainerS :=
  match c.cbody[pos]? with
  | some (bk, bit) =>
    if bit.isWs then c
    else c.withBody (c.cbody.set pos
      (bk, bit.withTrivia (fun t => { t with indent := spliceIndent ind t.indent })))
  | none => c

/-- Host values for the `item(value)` coercion (items.py:51); floats and
dates behave like the other scalars for every claim at issue and are
omitted. -/
inductive HostVal where
  | hbool (b : Bool)
  | hint (n : Int)
  | hstr (s : String)
  | hlist (l : List HostVal)
  | hdict (d : List (String × HostVal))

def HostVal.isDict : HostVal → Bool
  | .hdict _ => true
  | _ => false

/-- `Integer.__init__` (items.py:414): the `_sign` flag is set iff the raw
form matches `^[+\-]\d+$`. -/
def intSign (raw : String) : Bool :=
  match raw.data with
  | c :: rest => (c = '+' || c = '-') && !rest.isEmpty && rest.all (·.isDigit)
  | [] => false

/-- `Integer(value, trivia, raw)`. -/
def mkInteger (v : Int) (t : Trivia) (raw : String) : Item :=
  .integer v t raw (intSign raw)

/-- Modelled from the spec: `escape_string` lives in the `_utils` module,
which is not part of the sources; §4.5 says "str → String(SingleBasic,
escaped)", so the usual basic-string escapes are applied. -/
def escapeString (s : String) : String :=
  s.data.foldl
    (fun acc c =>
      acc ++ (if c = '\\' then "\\\\"
              else if c = '"' then "\\\""
              else if c = '\n' then "\\n"
              else if c = '\t' then "\\t"
              else if c = '\r' then "\\r"
              else String.singleton c)) ""

/-- `Key(k)` (items.py:232): bare iff non-empty and every character is a
letter, digit, `-` or `_`; otherwise basic-quoted.  (`escape_quotes` is in
the missing `_utils` module; modelled from the spec as escaping `"` and
backslash inside the quoted original.) -/
def mkKey (k : String) : KeyS :=
  let bareOk := !k.isEmpty && k.data.all (fun c => c.isAlphanum || c = '-' || c = '_')
  if bareOk then ⟨k, " = ", false, k⟩
  else ⟨k, " = ", false, "\"" ++ (k.data.foldl
    (fun acc c =>
      acc ++ (if c = '"' then "\\\"" else if c = '\\' then "\\\\" else String.singleton c)) "")
    ++ "\""⟩

/-! ### Array internals (items.py:817) -/

/-- The two pieces of `Array` state that its mutators touch: `_value` (the
interleaved item list) and the underlying native `list` contents. -/
structure AState where
  value : List Item
  publ : List PyVal

/-- Result of an `Array` mutation, carrying state across a raise like
`CRes`. -/
inductive ARes where
  | ok (a : AState)
  | err (e : AErr) (a : AState)

def ARes.state : ARes → AState
  | .ok a => a
  | .err _ a => a

/-- Python `list.insert` with its negative-index and clamping semantics. -/
def pyInsertInt {α : Type} (l : List α) (n : Int) (x : α) : List α :=
  let m : Nat := if n < 0 then (max 0 (l.length + n)).toNat else min n.toNat l.length
  l.insertIdx m x

/-- `Array._index_map` (rebuilt by `_reindex`, items.py:859): public element
index → physical position in `_value`, skipping `Whitespace`/`Comment`. -/
def arrIndexMap (vl : List Item) (pos : Nat) : Option Nat :=
  ((vl.enum.filter (fun e => !(e.2.isWs || e.2.isComment))).map (·.1))[pos]?

/-- Modelled from the spec: `TOMLChar` is in the missing `toml_char` module;
§4.3 distinguishes newline characters from trailing spaces, so `NL` is
`"\n\r"` and `SPACES` is `" \t"`. -/
def tomlNL : List Char := ['\n', '\r']

def tomlSPACES : List Char := [' ', '\t']

/-- The trailing while/else of `Array.insert` (items.py:984-990): walk left
from `i = idx - 1` over whitespace/comments; breaking on a comma-bearing
whitespace suppresses the comma insertion, falling off the loop inserts a
`","` whitespace at `i + 1`.  The argument is `i + 1`, so `0` encodes
`i = -1`; the result is the insertion position, or `none` after a break. -/
def commaScanN (vl : List Item) : Nat → Option Nat
  | 0 => some 0
  | n + 1 =>
    match vl[n]? with
    | some it =>
      if it.isWs || it.isComment then
        if (match it with | .ws s _ => s.contains ',' | _ => false) then none
        else commaScanN vl n
      else some (n + 1)
    | none => some (n + 1)

/-- `Array.insert` (items.py:943) on an already-coerced item (the
`item(value, _parent=self)` coercion at its head is the identity on items;
raw host values are coerced by the caller with the array as parent). -/
def arrayInsertIt (a : AState) (pos : Int) (it : Item) : ARes :=
  let length : Int := a.publ.length
  let a := if !(it.isComment || it.isWs) then
      { a with publ := pyInsertInt a.publ pos it.pyValue } else a
  let posN : Nat := if pos < 0 then (if pos + length < 0 then 0 else (pos + length).toNat)
    else pos.toNat
  let idxItems : Except AErr (Nat × List Item) :=
    if posN < length.toNat then
      match arrIndexMap a.value posN with
      | none => .error .indexError
      | some idx =>
        .ok (idx, if !(it.isWs || it.isComment) then [it, .ws "," false] else [it])
    else .ok (a.value.length, [it])
  match idxItems with
  | .error e => .err e a
  | .ok (idx, items) =>
    -- the `if idx > 0` whitespace-inheritance block (items.py:964-981)
    let step : Except AState (Nat × List Item) :=
      if 0 < idx then
        match a.value[idx - 1]? with
        | some lastIt =>
          if lastIt.isWs && !(match lastIt with | .ws s _ => s.contains ',' | _ => false) then
            let wsStr := match lastIt with | .ws s _ => s | _ => ""
            let idx := idx - 1
            if it.isWs && !(match it with | .ws s _ => s.contains ',' | _ => false) then
              -- merge the whitespace and return
              let itStr := match it with | .ws s _ => s | _ => ""
              .error { a with value := a.value.set idx (.ws (wsStr ++ itStr) false) }
            else
              let hasNewline := wsStr.data.any (· ∈ tomlNL)
              let hasSpace := !wsStr.isEmpty &&
                (match wsStr.data.getLast? with | some c => c ∈ tomlSPACES | none => false)
              let wsStr := if !hasSpace then wsStr ++ (if hasNewline then "    " else " ")
                else wsStr
              .ok (idx, .ws wsStr false :: items)
          else
            let wsStr := ""
            let hasNewline := wsStr.data.any (· ∈ tomlNL)
            let hasSpace := !wsStr.isEmpty &&
              (match wsStr.data.getLast? with | some c => c ∈ tomlSPACES | none => false)
            let wsStr := if !hasSpace then wsStr ++ (if hasNewline then "    " else " ")
              else wsStr
            .ok (idx, .ws wsStr false :: items)
        | none => .ok (idx, items)
      else .ok (idx, items)
    match step with
    | .error merged => .ok merged
    | .ok (idx, items) =>
      let vl := a.value.take idx ++ items ++ a.value.drop idx
      let vl :=
        if 0 < posN then
          match commaScanN vl idx with
          | some p => vl.take p ++ [.ws "," false] ++ vl.drop p
          | none => vl
        else vl
      .ok { a with value := vl }

/-- The `for i in idx[1:]` tombstoning prefix of `_replace_at`
(container.py:554-556). -/
def tombPre (s : ContainerS) : List Nat → Except AErr ContainerS
  | [] => .ok s
  | p :: ps =>
    if p < s.cbody.length then
      tombPre (s.withBody (s.cbody.set p (none, .nullItem))) ps
    else .error .indexError

/-- `for i in range(idx, len(body))` of `_replace_at` (container.py:574):
the position of the first `Table`/`AoT` at or after `idx`. -/
def firstTableFrom (body : List (Option KeyS × Item)) (idx : Nat) : Option Nat :=
  (List.range body.length).find? (fun i =>
    idx ≤ i && (match body[i]? with | some e => e.2.tableLike | none => false))

/-- `for table in item.body: current.append(table)` (container.py:164):
extend an AoT with the tables of another, one `AoT.insert` at a time. -/
def aotExtend (ts : List Item) (parsed : Bool) (trivia : Trivia) :
    List Item → Except AErr (List Item)
  | [] => .ok ts
  | t :: rest =>
    match aotInsert ts parsed trivia ts.length t with
    | .error e => .error e
    | .ok ts' => aotExtend ts' parsed trivia rest

/-- The stable `sorted(value.items(), key=lambda i: (isinstance(i[1], dict),
1))` of the coercion (items.py:66, `_sort_keys=False`): non-mapping entries
in order, then mapping entries in order. -/
def sortedEntries (d : List (String × HostVal)) : List (String × HostVal) :=
  d.filter (fun e => !e.2.isDict) ++ d.filter (fun e => e.2.isDict)

/-! ### The fuelled recursive operations

`append` recurses through nested containers in three places: the
super-table merge replays the new table's children through `Table.append`
on the existing fragment, the out-of-order bucket constructs a temporary
`OutOfOrderTableProxy` whose internal container is filled by `append`, and
the AoT-promotion calls `_replace` and hence `_replace_at`.  The host-value
coercion `item()` builds tables through `Table.__setitem__` /
`InlineTable.__setitem__`, which go through `Container.__setitem__`.  All of
these are made total by a fuel parameter that every mutual call decrements;
exhaustion is the distinguished `noFuel` outcome. -/

mutual

/-- `invalidate_display_name` (items.py:1157, 1481): clear `display_name`
and recurse into the values of the table's dict view (its keyed body items)
resp. the tables of an AoT. -/
def invalidateDN : Nat → Item → Item
  | 0, it => it
  | fuel + 1, .table c t ae st n _ =>
    .table (c.withBody (invDNBody fuel c.cbody)) t ae st n none
  | fuel + 1, .aot ts n p t => .aot (invDNList fuel ts) n p t
  | _ + 1, it => it

def invDNBody : Nat → List (Option KeyS × Item) → List (Option KeyS × Item)
  | 0, b => b
  | _ + 1, [] => []
  | fuel + 1, e :: rest =>
    (match e.1 with
     | some _ => (e.1, invalidateDN fuel e.2)
     | none => e) :: invDNBody fuel rest

def invDNList : Nat → List Item → List Item
  | 0, l => l
  | _ + 1, [] => []
  | fuel + 1, it :: rest => invalidateDN fuel it :: invDNList fuel rest

end

/-- `prev_ws` of container.py:86-87. -/
def prevWsOf (s : ContainerS) : Bool :=
  let prev := s.previousItem
  (match prev with | some p => p.isWs | none => false) || endsWithWithespaceOpt prev

/-- Lines 83-84: give a nameless `Table`/`AoT` the key's name. -/
def nameStep (k : KeyS) (it : Item) : Item :=
  if it.tableLike && it.nameOf == none then it.setName (some k.key) else it

/-- Truthiness of `item.trivia.indent` as read at container.py:91. -/
def itemIndentEmpty (it : Item) : Bool :=
  match it.triviaE with
  | .ok t => t.indent.isEmpty
  | .error _ => true

/-- Lines 88-92: for a `Table`, invalidate display names when the name
disagrees with the key, and put the table on a fresh line when the
container is non-empty, unparsed, the indent empty and no whitespace
precedes. -/
def tableIndentStep (fuel : Nat) (s : ContainerS) (k : KeyS) (prevWs : Bool)
    (it : Item) : Item :=
  if it.isTable then
    let it := if it.nameOf != some k.key then invalidateDN fuel it else it
    if !s.cbody.isEmpty && !(s.cparsed || !(itemIndentEmpty it) || prevWs) then
      it.withTrivia (fun t => { t with indent := "\n" })
    else it
  else it

/-- Lines 94-97: for an `AoT` appended to a non-empty unparsed container,
invalidate display names and prepend a newline to the first table's indent
unless it has one or whitespace precedes. -/
def aotStep (fuel : Nat) (s : ContainerS) (prevWs : Bool) (it : Item) : Item :=
  if it.isAot && !s.cbody.isEmpty && !s.cparsed then
    let it := invalidateDN fuel it
    match it with
    | .aot ts n p t =>
      match ts[0]? with
      | some t0 =>
        let ind0 := match t0.triviaE with
          | .ok tv => tv.indent
          | .error _ => ""
        if !(ind0.contains '\n' || prevWs) then
          .aot (ts.set 0 (t0.withTrivia
            (fun tv => { tv with indent := "\n" ++ tv.indent }))) n p t
        else it
      | none => it
    | _ => it
  else it

/-- The composed pure adjustment of lines 83-97 for a keyed append. -/
def adjustItemK (fuel : Nat) (s : ContainerS) (k : KeyS) (item : Item) : Item :=
  aotStep fuel s (prevWsOf s) (tableIndentStep fuel s k (prevWsOf s) (nameStep k item))


mutual

/-- `Container.append` (container.py:76).  Key and item arrive typed (the
`Key`/`_item` coercions are identities there).  With a `None` key, lines
83-84 (`item.name = key.key`) and 88-89 (`item.name != key.key`) both read
an attribute of `None` for a `Table`, so a keyless table append always
raises `AttributeError`; with a real key the three adjustment steps of lines
83-97 are pure (`adjustItemK`).  The duplicate-key block is `dupAppend`;
placement and the final plain append are the pure `placementAppend` /
`plainAppend` above. -/
def appendC : Nat → ContainerS → Option KeyS → Item → CRes
  | 0, s, _, _ => .err .noFuel s
  | fuel + 1, s, key, item =>
    match key with
    | none =>
      if item.tableLike && item.nameOf == none then .err .attrError s
      else if item.isTable then .err .attrError s
      else s.placementAppend none (aotStep fuel s (prevWsOf s) item)
    | some k =>
      let item := adjustItemK fuel s k item
      if s.shadowHas k.key then
        match dupAppend fuel s k item with
        | some r => r
        | none => s.placementAppend key item
      else s.placementAppend key item

/-- Lines 99-169 of `append`: the duplicate-key block.  `none` means the
Python control flow falls through to the placement logic. -/
def dupAppend : Nat → ContainerS → KeyS → Item → Option CRes
  | 0, s, _, _ => some (.err .noFuel s)
  | fuel + 1, s, k, item =>
    match s.mapLookup (some k.key) with
    | none => some (.err .keyError s)  -- `self._map[key]` on a stale shadow
    | some curIdx =>
      match curIdx.lastPos with
      | none => some (.err .indexError s)
      | some cpos =>
        match s.cbody[cpos]? with
        | none => some (.err .indexError s)
        | some cbe =>
          let current := cbe.2
          if item.isTable then
            if !current.tableLike then some (.err .keyAlreadyPresent s)
            else if item.isAotElement then
              -- lines 112-122: new AoT element found later on
              if !current.isAot then
                -- `AoT([current, item], parsed=self._parsed)` then `_replace`
                let mk : Except AErr (List Item) := do
                  let ts ← aotInsert [] s.cparsed ⟨"", "", "", ""⟩ 0 current
                  aotInsert ts s.cparsed ⟨"", "", "", ""⟩ ts.length item
                match mk with
                | .error e => some (.err e s)
                | .ok ts =>
                  let newAot := Item.aot ts none s.cparsed ⟨"", "", "", ""⟩
                  match s.mapLookup (some k.key) with
                  | none => some (.err .nonExistentKey s)
                  | some e => some (replaceAtC fuel s e k newAot)
              else
                match current with
                | .aot ts n p t =>
                  match aotInsert ts p t ts.length item with
                  | .error e => some (.err e s)
                  | .ok ts' =>
                    some (.ok (s.withBody (s.cbody.set cpos (cbe.1, .aot ts' n p t))))
                | _ => some (.err .typeError s)
            else if current.isAot then
              -- lines 123-130; `item.is_aot_element()` is false here, so the
              -- guard always raises (the `current.append` below it is dead)
              if !item.isAotElement then some (.err .keyAlreadyPresent s)
              else
                match current with
                | .aot ts n p t =>
                  match aotInsert ts p t ts.length item with
                  | .error e => some (.err e s)
                  | .ok ts' =>
                    some (.ok (s.withBody (s.cbody.set cpos (cbe.1, .aot ts' n p t))))
                | _ => some (.err .typeError s)
            else if current.isSuperTable then
              if item.isSuperTable then
                -- lines 133-154: merge or bucket
                match s.ctableKeys.getLast? with
                | none => some (.err .indexError s)  -- `self._table_keys[-1]`
                | some lastK =>
                  if !keyPyEqOpt lastK cbe.1 then some (dupBucket fuel s k item curIdx)
                  else if k.dotted then some (dupBucket fuel s k item curIdx)
                  else
                    match cbe.1 with
                    | none => some (.err .attrError s)  -- `.is_dotted()` on None
                    | some ck =>
                      if ck.dotted then some (dupBucket fuel s k item curIdx)
                      else
                        -- lines 151-154: fold the children into `current`
                        match current, item with
                        | .table cc ct cae cst cn cd, .table ic _ _ _ _ _ =>
                          let r := mergeLoop fuel cc ct ic.cbody
                          let s' := s.withBody (s.cbody.set cpos
                            (cbe.1, .table r.1 ct cae cst cn cd))
                          match r.2 with
                          | none => some (.ok s')
                          | some e => some (.err e s')
                        | _, _ => some (.err .typeError s)
              else
                -- line 155: `elif current_body_element[0].is_dotted()`
                match cbe.1 with
                | none => some (.err .attrError s)
                | some ck =>
                  if ck.dotted then some (.err .atomlError s)
                  else none  -- fall through to placement
            else if !item.isSuperTable then some (.err .keyAlreadyPresent s)
            else none  -- current plain table, item super table: fall through
          else if item.isAot then
            -- lines 159-167
            if !current.isAot then some (.err .keyAlreadyPresent s)
            else
              match current, item with
              | .aot ts n p t, .aot newTs _ _ _ =>
                match aotExtend ts p t newTs with
                | .error e => some (.err e s)
                | .ok ts' =>
                  some (.ok (s.withBody (s.cbody.set cpos (cbe.1, .aot ts' n p t))))
              | _, _ => some (.err .typeError s)
          else some (.err .keyAlreadyPresent s)

/-- The bucket case of the super-table/super-table collision (lines
139-149): extend the index entry with the new body position, append the
fragment, record the table key, and construct a temporary
`OutOfOrderTableProxy` to check for errors — with the body already extended,
exactly as in the source. -/
def dupBucket : Nat → ContainerS → KeyS → Item → IdxE → CRes
  | 0, s, _, _, _ => .err .noFuel s
  | fuel + 1, s, k, item, curIdx =>
    let newIs := curIdx.toList ++ [s.cbody.length]
    let s := s.withMap (alSet s.cmap (some k.key) (.many newIs))
    let s := s.withBody (s.cbody ++ [(some k, item)])
    let s := s.withTableKeys (s.ctableKeys ++ [some k])
    match buildProxy fuel s newIs with
    | .error e => .err e s
    | .ok _ => .ok s

/-- The merge loop of container.py:151-153: append every child of the new
super table to the existing fragment through `Table.append`; an error stops
the loop, keeping the children already merged. -/
def mergeLoop : Nat → ContainerS → Trivia → List (Option KeyS × Item) →
    ContainerS × Option AErr
  | 0, c, _, _ => (c, some .noFuel)
  | _ + 1, c, _, [] => (c, none)
  | fuel + 1, c, tt, e :: rest =>
    match tableAppendM fuel c tt e.1 e.2 with
    | .ok c' => mergeLoop fuel c' tt rest
    | .err er c' => (c', some er)

/-- `Table.append` (items.py:1076) acting on the table's container and
trivia.  The post-append indent rewrite of `_item` mutates the object that
was just appended; by aliasing that is the body entry at the position the
append chose, which `mungeIndentAt` rewrites (a single-position index entry;
when the item merged into an existing structure instead, the rewrite of the
shared object is not locatable in this functional model and is skipped —
the rewrite itself only fires when the table's indent has a space run, which
never holds on any path exercised here). -/
def tableAppendM : Nat → ContainerS → Trivia → Option KeyS → Item → CRes
  | 0, c, _, _, _ => .err .noFuel c
  | fuel + 1, c, tTrivia, key, it =>
    match appendC fuel c key it with
    | .err e c' => .err e c'
    | .ok c' =>
      match firstSpaceRun tTrivia.indent with
      | none => .ok c'
      | some ind =>
        if it.isWs then .ok c'
        else
          match key with
          | some k =>
            match c'.mapLookup (some k.key) with
            | some (.one p) => .ok (mungeIndentAt c' p ind)
            | _ => .ok c'
          | none => .ok (mungeIndentAt c' (c'.cbody.length - 1) ind)

/-- `OutOfOrderTableProxy.__init__` (container.py:678): scan the bucket
positions; table fragments contribute their children to the internal
container (a `Container(True)`) and the `tables`/`tables_map` records;
non-table entries are appended directly and recorded in `_map`. -/
def buildProxy : Nat → ContainerS → List Nat → Except AErr ProxyS
  | 0, _, _ => .error .noFuel
  | fuel + 1, s, indices => proxyLoop fuel s ⟨emptyContainer true, [], [], []⟩ indices

def proxyLoop : Nat → ContainerS → ProxyS → List Nat → Except AErr ProxyS
  | 0, _, _, _ => .error .noFuel
  | _ + 1, _, p, [] => .ok p
  | fuel + 1, s, p, i :: rest =>
    match s.cbody[i]? with
    | none => .error .indexError
    | some (bk, bit) =>
      match bit with
      | .table tc _ _ _ _ _ =>
        let tidx := p.tables.length
        match proxyTableLoop fuel { p with tables := p.tables ++ [bit] } tidx tc.cbody with
        | .error e => .error e
        | .ok p' => proxyLoop fuel s p' rest
      | _ =>
        match appendC fuel p.internal bk bit with
        | .err e _ => .error e
        | .ok ic =>
          proxyLoop fuel s
            { p with internal := ic, pmap := alSet p.pmap (bk.map (·.key)) i } rest

def proxyTableLoop : Nat → ProxyS → Nat → List (Option KeyS × Item) → Except AErr ProxyS
  | 0, _, _, _ => .error .noFuel
  | _ + 1, p, _, [] => .ok p
  | fuel + 1, p, tidx, (ck, cv) :: rest =>
    match appendC fuel p.internal ck cv with
    | .err e _ => .error e
    | .ok ic =>
      proxyTableLoop fuel
        { p with internal := ic, tablesMap := alSet p.tablesMap (ck.map (·.key)) tidx }
        tidx rest

/-- `Container._replace_at` (container.py:548).  `invalidate_display_name`
runs in Python after the branch, in place on the very object the branch
stored; nothing in the branch reads a display name, so it is applied to
`value` up front here, which yields the same state. -/
def replaceAtC : Nat → ContainerS → IdxE → KeyS → Item → CRes
  | 0, s, _, _, _ => .err .noFuel s
  | fuel + 1, s, idxE, newKey, value =>
    -- lines 554-558: tombstone all but the first bucket position
    let pre : Except AErr (ContainerS × Nat) :=
      match idxE with
      | .one i => .ok (s, i)
      | .many [] => .error .indexError  -- `idx[0]` of an empty tuple
      | .many (i0 :: rest) => (tombPre s rest).map (·, i0)
    match pre with
    | .error e => .err e s
    | .ok (s, idx) =>
      match s.cbody[idx]? with
      | none => .err .indexError s
      | some (kOld, v) =>
        -- line 562: `self._map[new_key] = self._map.pop(k)`
        let kname : Option String := kOld.map (·.key)
        match s.mapLookup kname with
        | none => .err .keyError s
        | some popped =>
          let s := s.withMap (alSet (alDel s.cmap kname) (some newKey.key) popped)
          -- lines 563-564: `if new_key != k: dict.__delitem__(self, k)`
          let sdel : Except AErr ContainerS :=
            if keyPyEqOpt (some newKey) kOld then .ok s
            else match kOld with
              | none => .error .keyError
              | some kk =>
                if s.shadowHas kk.key then .ok (s.withShadow (alDel s.cshadow kk.key))
                else .error .keyError
          match sdel with
          | .error e => .err e s
          | .ok s =>
            -- lines 566-567: collapse a bucket entry to its first position
            let scol : Except AErr ContainerS :=
              match popped with
              | .one _ => .ok s
              | .many is =>
                match is[0]? with
                | none => .error .indexError
                | some p =>
                  .ok (s.withMap (alSet s.cmap (some newKey.key) (.one p)))
            match scol with
            | .error e => .err e s
            | .ok s =>
              let value := invalidateDN fuel value
              if value.tableLike && !v.tableLike then
                -- lines 571-581: scalar replaced by a table: remove and
                -- re-insert after the existing tables
                match kOld with
                | none => .err .typeError s  -- `Key(None)` in `remove`
                | some kk =>
                  match s.removeC kk with
                  | .err e s' => .err e s'
                  | .ok s =>
                    match firstTableFrom s.cbody idx with
                    | some i =>
                      match s.insertAtC i newKey value with
                      | .err e s' => .err e s'
                      | .ok s => replaceFinish fuel s newKey value (some i)
                    | none =>
                      match appendC fuel s (some newKey) value with
                      | .err e s' => .err e s'
                      | .ok s => replaceFinish fuel s newKey value none
              else
                -- lines 582-589: trivia inheritance and in-place overwrite
                let vnew : Except AErr Item :=
                  if !(value.isWs || value.isAot) then
                    match v.triviaE with
                    | .error e => .error e
                    | .ok vt =>
                      match value.triviaE with
                      | .error e => .error e
                      | .ok nt =>
                        .ok (value.withTrivia (fun _ =>
                          { indent := vt.indent,
                            commentWs := if nt.commentWs.isEmpty then vt.commentWs
                              else nt.commentWs,
                            comment := if nt.comment.isEmpty then vt.comment
                              else nt.comment,
                            trail := vt.trail }))
                  else .ok value
                match vnew with
                | .error e => .err e s
                | .ok value =>
                  let s := s.withBody (s.cbody.set idx (some newKey, value))
                  replaceFinish fuel s newKey value (some idx)

/-- Lines 594-605 of `_replace_at`: the cosmetic trailing newline inside a
replacing `Table` and the shadow update (both only for `Table` values;
`posO = none` encodes Python's `idx = -1` from the append fallback, in which
case `idx` is reset to `last` and the `idx < last` guard is never true). -/
def replaceFinish : Nat → ContainerS → KeyS → Item → Option Nat → CRes
  | 0, s, _, _, _ => .err .noFuel s
  | fuel + 1, s, newKey, value, posO =>
    if value.isTable then
      match s.previousItemWithIndex with
      | none => .err .typeError s  -- `last, _ = None` unpacking
      | some (last, _) =>
        let idx := match posO with
          | some p => p
          | none => last
        let hasWs := endsWithWithespace value
        let nextWs := idx < last &&
          (match s.cbody[idx + 1]? with | some e => e.2.isWs | none => false)
        if idx < last && !(nextWs || hasWs) then
          -- `value.append(None, Whitespace("\n"))`: Table.append of a
          -- keyless whitespace into the table's container, in place
          match value with
          | .table vc vt vae vst vn vd =>
            match tableAppendM fuel vc vt none (.ws "\n" false) with
            | .err e _ => .err e s
            | .ok vc' =>
              let value := Item.table vc' vt vae vst vn vd
              let s := s.withBody (s.cbody.set idx (s.cbody[idx]?.elim none (·.1), value))
              .ok (s.withShadow (alSet s.cshadow newKey.key value.pyValue))
          | _ => .err .typeError s
        else
          .ok (s.withShadow (alSet s.cshadow newKey.key value.pyValue))
    else .ok s

/-- `Container.__setitem__` (container.py:520) for a (non-None) key:
replace when the shadow has it, else append. -/
def containerSetItem : Nat → ContainerS → KeyS → Item → CRes
  | 0, s, _, _ => .err .noFuel s
  | fuel + 1, s, key, value =>
    if s.shadowHas key.key then
      match s.mapLookup (some key.key) with
      | none => .err .nonExistentKey s
      | some e => replaceAtC fuel s e key value
    else appendC fuel s (some key) value

/-- `Table.__setitem__` (items.py:1173) on the table's container and trivia
(with the same located modelling of the post-assignment in-place indent
rewrite as `tableAppendM`). -/
def tableSetItemF : Nat → ContainerS → Trivia → String → Item → CRes
  | 0, c, _, _, _ => .err .noFuel c
  | fuel + 1, c, tTrivia, kstr, value =>
    let isReplace := c.cbody.any (fun e => match e.1 with
      | some bk => bk.key == kstr
      | none => false)
    match containerSetItem fuel c (mkKey kstr) value with
    | .err e c' => .err e c'
    | .ok c' =>
      if isReplace then .ok c'
      else
        match firstSpaceRun tTrivia.indent with
        | none => .ok c'
        | some ind =>
          if value.isWs then .ok c'
          else
            match c'.mapLookup (some kstr) with
            | some (.one p) => .ok (mungeIndentAt c' p ind)
            | _ => .ok c'

/-- `InlineTable.__setitem__` (items.py:1316): container assignment, then
the in-place comment strip on the stored value, then the indent rewrite. -/
def inlineTableSetItemF : Nat → ContainerS → Trivia → String → Item → CRes
  | 0, c, _, _, _ => .err .noFuel c
  | fuel + 1, c, tTrivia, kstr, value =>
    match containerSetItem fuel c (mkKey kstr) value with
    | .err e c' => .err e c'
    | .ok c' =>
      -- `if value.trivia.comment: value.trivia.comment = ""` on the stored
      -- object (located through the single-position index entry)
      let c' :=
        match c'.mapLookup (some kstr) with
        | some (.one p) =>
          match c'.cbody[p]? with
          | some (bk, bit) =>
            match bit.triviaE with
            | .ok t =>
              if !t.comment.isEmpty then
                c'.withBody (c'.cbody.set p
                  (bk, bit.withTrivia (fun t => { t with comment := "" })))
              else c'
            | .error _ => c'
          | none => c'
        | _ => c'
      match firstSpaceRun tTrivia.indent with
      | none => .ok c'
      | some ind =>
        if value.isWs then .ok c'
        else
          match c'.mapLookup (some kstr) with
          | some (.one p) => .ok (mungeIndentAt c' p ind)
          | _ => .ok c'

/-- The `val[k] = item(v, _parent=val)` loop over the sorted entries of a
mapping (items.py:66-70 and 85-93): coerce each child (`childPia` records
whether the `_parent` passed to the child coercion is an `Array`), strip the
trail when the target is an inline table being built inside an array, then
assign through the table/inline-table setter. -/
def dictLoop : Nat → Bool → Bool → Bool → ContainerS → Trivia →
    List (String × HostVal) → Except AErr ContainerS
  | 0, _, _, _, _, _, _ => .error .noFuel
  | _ + 1, _, _, _, c, _, [] => .ok c
  | fuel + 1, inline, childPia, stripTrail, c, tTrivia, (kstr, v) :: rest =>
    match itemOf fuel childPia v with
    | .error e => .error e
    | .ok i =>
      let i := if stripTrail then i.withTrivia (fun t => { t with trail := "" }) else i
      let r := if inline then inlineTableSetItemF fuel c tTrivia kstr i
        else tableSetItemF fuel c tTrivia kstr i
      match r with
      | .ok c' => dictLoop fuel inline childPia stripTrail c' tTrivia rest
      | .err e _ => .error e

/-- The AoT branch of the list coercion (items.py:75-97 with
`table_constructor = Table`): each (mapping) element becomes an aot-element
`Table(Container(), Trivia(), True)` filled through `Table.__setitem__`, and
is appended via `AoT.insert`; a non-mapping element would hit the
`ValueError` of `AoT.insert`. -/
def aotLoop : Nat → List Item → List HostVal → Except AErr (List Item)
  | 0, _, _ => .error .noFuel
  | _ + 1, ts, [] => .ok ts
  | fuel + 1, ts, v :: rest =>
    match v with
    | .hdict d =>
      match dictLoop fuel false false false (emptyContainer false) Trivia.mkDefault
          (sortedEntries d) with
      | .error e => .error e
      | .ok c =>
        let tbl := Item.table c Trivia.mkDefault true false none none
        match aotInsert ts false ⟨"", "", "", ""⟩ ts.length tbl with
        | .error e => .error e
        | .ok ts' => aotLoop fuel ts' rest
    | _ =>
      -- `a.append(v)` with a non-table value: AoT.insert raises ValueError
      .error .valueError

/-- The Array branch of the list coercion (items.py:78-97 with
`table_constructor = InlineTable`): mapping elements become
`InlineTable(Container(), Trivia(), True)` with trail-stripped children
(their dict children are coerced with the *array* as parent), and every
element goes through `Array.insert` at the end. -/
def arrLoop : Nat → AState → List HostVal → Except AErr AState
  | 0, _, _ => .error .noFuel
  | _ + 1, a, [] => .ok a
  | fuel + 1, a, v :: rest =>
    let coerced : Except AErr Item :=
      match v with
      | .hdict d =>
        match dictLoop fuel true true true (emptyContainer false) Trivia.mkDefault
            (sortedEntries d) with
        | .error e => .error e
        | .ok c => .ok (Item.inlineTable c Trivia.mkDefault true)
      | _ => itemOf fuel true v
    match coerced with
    | .error e => .error e
    | .ok it =>
      match arrayInsertIt a a.publ.length it with
      | .err e _ => .error e
      | .ok a' => arrLoop fuel a' rest

/-- `item(value, _parent, _sort_keys=False)` (items.py:51): the host-value
coercion.  `parentIsArray` is `isinstance(_parent, Array)`. -/
def itemOf : Nat → Bool → HostVal → Except AErr Item
  | 0, _, _ => .error .noFuel
  | fuel + 1, parentIsArray, v =>
    match v with
    | .hbool b => .ok (.boolItem b Trivia.mkDefault)
    | .hint n => .ok (mkInteger n Trivia.mkDefault (toString n))
    | .hstr s => .ok (.stringItem s Trivia.mkDefault (escapeString s))
    | .hdict d =>
      if parentIsArray then
        match dictLoop fuel true false false (emptyContainer false) Trivia.mkDefault
            (sortedEntries d) with
        | .error e => .error e
        | .ok c => .ok (.inlineTable c Trivia.mkDefault false)
      else
        match dictLoop fuel false false false (emptyContainer false) Trivia.mkDefault
            (sortedEntries d) with
        | .error e => .error e
        | .ok c => .ok (.table c Trivia.mkDefault false false none none)
    | .hlist l =>
      if !l.isEmpty && l.all HostVal.isDict then
        match aotLoop fuel [] l with
        | .error e => .error e
        | .ok ts => .ok (.aot ts none false ⟨"", "", "", ""⟩)
      else
        match arrLoop fuel ⟨[], []⟩ l with
        | .error e => .error e
        | .ok a => .ok (.arrayItem a.value a.publ Trivia.mkDefault false)

end

/-! ### Accessors -/

/-- What `Container.item` / `Container.__getitem__` return: an `Item`, a
native value (the Bool unwrap of the map view), or an
`OutOfOrderTableProxy`. -/
inductive GetResult where
  | item (it : Item)
  | native (v : PyVal)
  | proxy (p : ProxyS)

/-- `Container.item` (container.py:340): `NonExistentKey` when absent, a
proxy for a bucketed entry, else the body item at the single position —
returned as stored, with no unwrapping. -/
def itemAcc (fuel : Nat) (s : ContainerS) (k : KeyS) : Except AErr GetResult :=
  match s.mapLookup (some k.key) with
  | none => .error .nonExistentKey
  | some (.many is) =>
    match buildProxy fuel s is with
    | .error e => .error e
    | .ok p => .ok (.proxy p)
  | some (.one i) =>
    match s.cbody[i]? with
    | none => .error .indexError
    | some e => .ok (.item e.2)

/-- `Container.__getitem__` (container.py:500): like `item`, but a `Bool`
item is unwrapped to its native value at this map-view boundary. -/
def getItemC (fuel : Nat) (s : ContainerS) (k : KeyS) : Except AErr GetResult :=
  match s.mapLookup (some k.key) with
  | none => .error .nonExistentKey
  | some (.many is) =>
    match buildProxy fuel s is with
    | .error e => .error e
    | .ok p => .ok (.proxy p)
  | some (.one i) =>
    match s.cbody[i]? with
    | none => .error .indexError
    | some e =>
      if e.2.isBoolean then .ok (.native e.2.pyValue) else .ok (.item e.2)

/-- A sequence of `append` calls (each with its own fuel), keeping whatever
state each call leaves behind — also after an error, as a caller catching
the exception would observe. -/
def runAppends (s : ContainerS) : List (Nat × Option KeyS × Item) → ContainerS
  | [] => s
  | (f, k, it) :: rest => runAppends (appendC f s k it).state rest

/-! ### Integer arithmetic (items.py:406) -/

/-- `Integer._new` (items.py:460): `raw = str(result)`, and when the operand
carried an explicit sign, a sign character is prepended to that string —
also when `str(result)` already starts with `-`. -/
def intNew (trivia : Trivia) (sign : Bool) (result : Int) : Item :=
  let raw := toString result
  let raw := if sign then (if 0 ≤ result then "+" else "-") ++ raw else raw
  mkInteger result trivia raw

/-- `Integer.__add__` with an `int` argument (items.py:434). -/
def integerAdd (i : Item) (n : Int) : Except AErr Item :=
  match i with
  | .integer v t _ sg => .ok (intNew t sg (v + n))
  | _ => .error .typeError

/-- `Integer.__sub__` with an `int` argument (items.py:447). -/
def integerSub (i : Item) (n : Int) : Except AErr Item :=
  match i with
  | .integer v t _ sg => .ok (intNew t sg (v - n))
  | _ => .error .typeError

/-! ### Bool comparison (items.py:540)

Python's `==` protocol: `Bool.__eq__` answers only for native bools
(items.py:569-573) and returns `NotImplemented` otherwise; the reflected
`__eq__` of the right operand is then tried, and if it too returns
`NotImplemented`, `==` falls back to object identity.  Identity is modelled
with explicit object ids on the wrapper operands. -/

/-- Values a `Bool` item can be compared against: native bools, ints,
strings, and other `Bool` items (carrying an object id for the identity
fallback). -/
inductive PyOperand where
  | pbool (b : Bool)
  | pint (n : Int)
  | pstr (s : String)
  | pboolItem (value : Bool) (oid : Nat)
deriving Repr, DecidableEq

def PyOperand.isNativeBool : PyOperand → Bool
  | .pbool _ => true
  | _ => false

/-- `Bool.__eq__(self, other)` (items.py:569): `NotImplemented` (`none`)
unless `other` is a native bool. -/
def boolEqMeth (value : Bool) (x : PyOperand) : Option Bool :=
  match x with
  | .pbool v => some (v == value)
  | _ => none

/-- The reflected `__eq__` of the operand called with a `Bool` item:
`bool.__eq__`/`int.__eq__` answer only for numbers, `str.__eq__` only for
strings, and `Bool.__eq__` only for native bools — a `Bool` item is none of
those, so every case is `NotImplemented`. -/
def operandEqMethBoolItem : PyOperand → Option Bool
  | .pbool _ => none
  | .pint _ => none
  | .pstr _ => none
  | .pboolItem _ _ => none

/-- The full `b == x` for a `Bool` item `b` with id `oid`: method, reflected
method, then identity. -/
def pyEqBoolItem (value : Bool) (oid : Nat) (x : PyOperand) : Bool :=
  match boolEqMeth value x with
  | some r => r
  | none =>
    match operandEqMethBoolItem x with
    | some r => r
    | none =>
      match x with
      | .pboolItem _ oid2 => oid == oid2
      | _ => false

/-- `Bool.__bool__` (items.py:564). -/
def boolDunderBool (value : Bool) : Bool := value

/-- `Bool.__hash__` (items.py:575) is `hash(self._value)`; Python hashes the
native bools to 1 and 0. -/
def pyHashBoolItem (value : Bool) : Int := if value then 1 else 0

def pyHashNativeBool (b : Bool) : Int := if b then 1 else 0

/-! ### Array `__setitem__` (items.py:934) -/

/-- Keys accepted by `Array.__setitem__`: an int index or a slice
(modelled as `[start:stop]` with non-negative bounds). -/
inductive ASetKey where
  | idx (i : Int)
  | slice (start stop : Nat)
deriving Repr, DecidableEq

/-- Python `l[start:stop] = elems` on a native list: clamp the bounds and
splice. -/
def pyListSetSlice {α : Type} (l : List α) (start stop : Nat) (elems : List α) : List α :=
  let start := min start l.length
  let stop := min (max stop start) l.length
  l.take start ++ elems ++ l.drop stop

/-- `Array.__setitem__` (items.py:934): the assigned value is coerced, the
*native list* is updated first via `list.__setitem__` (a slice key splices
the iterated `it.value` into the public list), and only then does the slice
check raise `ValueError` — so a failing slice assignment leaves the public
list modified and `_value` untouched.  For an int key the element is
replaced in both structures. -/
def arraySetItem (fuel : Nat) (a : AState) (key : ASetKey) (v : HostVal) : ARes :=
  match itemOf fuel true v with
  | .error e => .err e a
  | .ok it =>
    match key with
    | .slice start stop =>
      match it with
      | .arrayItem _ publN _ _ =>
        let a := { a with publ := pyListSetSlice a.publ start stop publN }
        .err .valueError a
      | _ => .err .typeError a
    | .idx i =>
      let len : Int := a.publ.length
      let j : Int := if i < 0 then i + len else i
      if j < 0 || len ≤ j then .err .indexError a
      else
        let a := { a with publ := a.publ.set j.toNat it.pyValue }
        match arrIndexMap a.value j.toNat with
        | none => .err .keyError a
        | some p => .ok { a with value := a.value.set p it }

/-! ### Rendering (`as_string`)

Transcription of `Container.as_string` with `_render_table`, `_render_aot`,
`_render_aot_table` and `_render_simple_item` (container.py:360-491) and of
the `as_string` methods of the item classes.  `decode` (from the missing
`_compat` module) is the identity on strings.  `String.as_string` surrounds
the original with the delimiter of its type; only single-line basic strings
occur here, so the delimiter is `"`. -/

/-- `str.rstrip(chars)`. -/
def rstripChars (s : String) (chars : List Char) : String :=
  ⟨(s.data.reverse.dropWhile (· ∈ chars)).reverse⟩

mutual

def itemAsString : Nat → Item → Except AErr String
  | 0, _ => .error .noFuel
  | fuel + 1, it =>
    match it with
    | .ws s _ => .ok s
    | .comment t => .ok (t.indent ++ t.comment ++ t.trail)
    | .boolItem b _ => .ok (if b then "true" else "false")
    | .integer _ _ raw _ => .ok raw
    | .stringItem _ _ orig => .ok ("\"" ++ orig ++ "\"")
    | .nullItem => .ok ""
    | .arrayItem vl _ t ml =>
      match strJoinE (itemAsString fuel) vl with
      | .error e => .error e
      | .ok parts =>
        if !ml then .ok ("[" ++ String.join parts ++ "]")
        else
          match strJoinE (itemAsString fuel) (vl.filter (fun v => !v.isWs)) with
          | .error e => .error e
          | .ok parts =>
            let sep := ",\n" ++ t.indent ++ "    "
            .ok ("[\n" ++ t.indent ++ "    " ++ String.intercalate sep parts ++ ",\n" ++ "]")
    | .inlineTable c _ isNew => inlineTableAsString fuel c isNew
    | .table c _ _ _ _ _ => containerAsString fuel c
    | .aot ts _ _ _ =>
      match strJoinE (itemAsString fuel) ts with
      | .error e => .error e
      | .ok parts => .ok (String.join parts)

def strJoinE : (Item → Except AErr String) → List Item → Except AErr (List String)
  | _, [] => .ok []
  | f, it :: rest =>
    match f it with
    | .error e => .error e
    | .ok s =>
      match strJoinE f rest with
      | .error e => .error e
      | .ok ss => .ok (s :: ss)

/-- `InlineTable.as_string` (items.py:1281). -/
def inlineTableAsString : Nat → ContainerS → Bool → Except AErr String
  | 0, _, _ => .error .noFuel
  | fuel + 1, c, isNew => inlineTableLoop fuel c.cbody.length isNew 0 "\x7b" c.cbody

def inlineTableLoop : Nat → Nat → Bool → Nat → String →
    List (Option KeyS × Item) → Except AErr String
  | 0, _, _, _, _, _ => .error .noFuel
  | _ + 1, _, _, _, buf, [] => .ok (buf ++ "\x7d")
  | fuel + 1, total, isNew, i, buf, (k, v) :: rest =>
    match k with
    | none =>
      let buf := if i = total - 1 then
          (if isNew then rstripChars buf [',', ' '] else rstripChars buf [','])
        else buf
      match itemAsString fuel v with
      | .error e => .error e
      | .ok s => inlineTableLoop fuel total isNew (i + 1) (buf ++ s) rest
    | some kk =>
      match v.triviaE with
      | .error e => .error e
      | .ok t =>
        match itemAsString fuel v with
        | .error e => .error e
        | .ok s =>
          let buf := buf ++ t.indent
            ++ (kk.original ++ (if kk.dotted then "." else ""))
            ++ kk.sep ++ s ++ t.comment ++ (t.trail.replace "\n" "")
          let buf := if i ≠ total - 1 then buf ++ "," ++ (if isNew then " " else "") else buf
          inlineTableLoop fuel total isNew (i + 1) buf rest

/-- `Container.as_string` (container.py:360). -/
def containerAsString : Nat → ContainerS → Except AErr String
  | 0, _ => .error .noFuel
  | fuel + 1, c => renderBodyLoop fuel "" c.cbody

def renderBodyLoop : Nat → String → List (Option KeyS × Item) → Except AErr String
  | 0, _, _ => .error .noFuel
  | _ + 1, acc, [] => .ok acc
  | fuel + 1, acc, (k, v) :: rest =>
    let piece : Except AErr String :=
      match k with
      | some _ =>
        match v with
        | .table tc tt tae tst _ tdn => renderTable fuel k tc tt tae tst tdn none
        | .aot ts _ _ _ => renderAoT fuel k ts none
        | _ => renderSimpleItem fuel k v none
      | none => renderSimpleItem fuel k v none
    match piece with
    | .error e => .error e
    | .ok s => renderBodyLoop fuel (acc ++ s) rest

/-- `Container._render_table` (container.py:375). -/
def renderTable : Nat → Option KeyS → ContainerS → Trivia → Bool → Bool →
    Option String → Option String → Except AErr String
  | 0, _, _, _, _, _, _, _ => .error .noFuel
  | fuel + 1, key, tc, tt, tae, tst, tdn, pfx =>
    let keyE : Except AErr String :=
      match tdn with
      | some dn => .ok dn
      | none =>
        match key with
        | none => .error .attrError  -- `key.as_string()` on None
        | some k =>
          .ok (match pfx with
            | some p => p ++ "." ++ k.original
            | none => k.original)
    match keyE with
    | .error e => .error e
    | .ok keyStr =>
      let keyDottedE : Except AErr Bool :=
        match key with
        | none => .error .attrError
        | some k => .ok k.dotted
      let anyVisible := tc.cbody.any (fun e => !(e.2.tableLike || e.2.isWs))
      let headerE : Except AErr Bool :=
        if !tst then .ok true
        else if anyVisible then
          match keyDottedE with
          | .error e => .error e
          | .ok d => .ok (!d)
        else .ok false
      match headerE with
      | .error e => .error e
      | .ok header =>
        let cur :=
          if header then
            let od := if tae then ("[[", "]]") else ("[", "]")
            tt.indent ++ od.1 ++ keyStr ++ od.2 ++ tt.commentWs ++ tt.comment ++ tt.trail
              ++ (if !tt.trail.contains '\n' && 0 < tc.cshadow.length then "\n" else "")
          else ""
        renderTableChildren fuel cur keyStr key tc.cbody

def renderTableChildren : Nat → String → String → Option KeyS →
    List (Option KeyS × Item) → Except AErr String
  | 0, _, _, _, _ => .error .noFuel
  | _ + 1, acc, _, _, [] => .ok acc
  | fuel + 1, acc, keyStr, key, (k, v) :: rest =>
    let piece : Except AErr String :=
      match v with
      | .table vc vt vae vst _ vdn =>
        if vst then
          match k, key with
          | some kk, some ok' =>
            if kk.dotted && !ok'.dotted then renderTable fuel k vc vt vae vst vdn none
            else renderTable fuel k vc vt vae vst vdn (some keyStr)
          | _, _ => .error .attrError  -- `.is_dotted()` on None
        else renderTable fuel k vc vt vae vst vdn (some keyStr)
      | .aot ts _ _ _ => renderAoT fuel k ts (some keyStr)
      | _ =>
        match key with
        | none => .error .attrError
        | some ok' =>
          renderSimpleItem fuel k v (if ok'.dotted then some keyStr else none)
    match piece with
    | .error e => .error e
    | .ok s => renderTableChildren fuel (acc ++ s) keyStr key rest

/-- `Container._render_aot` (container.py:428). -/
def renderAoT : Nat → Option KeyS → List Item → Option String → Except AErr String
  | 0, _, _, _ => .error .noFuel
  | fuel + 1, key, ts, pfx =>
    match key with
    | none => .error .attrError
    | some k =>
      let keyStr := match pfx with
        | some p => p ++ "." ++ k.original
        | none => k.original
      renderAotLoop fuel "" keyStr ts

def renderAotLoop : Nat → String → String → List Item → Except AErr String
  | 0, _, _, _ => .error .noFuel
  | _ + 1, acc, _, [] => .ok acc
  | fuel + 1, acc, keyStr, t :: rest =>
    match renderAotTable fuel t (some keyStr) with
    | .error e => .error e
    | .ok s => renderAotLoop fuel (acc ++ s) keyStr rest

/-- `Container._render_aot_table` (container.py:440). -/
def renderAotTable : Nat → Item → Option String → Except AErr String
  | 0, _, _ => .error .noFuel
  | fuel + 1, t, pfx =>
    match t with
    | .table tc tt _ tst _ _ =>
      let keyStr := pfx.getD ""
      let cur :=
        if !tst then
          tt.indent ++ "[[" ++ keyStr ++ "]]" ++ tt.commentWs ++ tt.comment ++ tt.trail
        else ""
      renderAotTableChildren fuel cur keyStr tc.cbody
    | _ => .error .attrError

def renderAotTableChildren : Nat → String → String → List (Option KeyS × Item) →
    Except AErr String
  | 0, _, _, _ => .error .noFuel
  | _ + 1, acc, _, [] => .ok acc
  | fuel + 1, acc, keyStr, (k, v) :: rest =>
    let piece : Except AErr String :=
      match v with
      | .table vc vt vae vst _ vdn =>
        if vst then
          match k with
          | some kk =>
            if kk.dotted then renderTable fuel k vc vt vae vst vdn none
            else renderTable fuel k vc vt vae vst vdn (some keyStr)
          | none => .error .attrError
        else renderTable fuel k vc vt vae vst vdn (some keyStr)
      | .aot ts _ _ _ => renderAoT fuel k ts (some keyStr)
      | _ => renderSimpleItem fuel k v none
    match piece with
    | .error e => .error e
    | .ok s => renderAotTableChildren fuel (acc ++ s) keyStr rest

/-- `Container._render_simple_item` (container.py:475). -/
def renderSimpleItem : Nat → Option KeyS → Item → Option String → Except AErr String
  | 0, _, _, _ => .error .noFuel
  | fuel + 1, key, item, pfx =>
    match key with
    | none => itemAsString fuel item
    | some k =>
      let keyStr := match pfx with
        | some p => p ++ "." ++ k.original
        | none => k.original
      match item.triviaE with
      | .error e => .error e
      | .ok t =>
        match itemAsString fuel item with
        | .error e => .error e
        | .ok s =>
          .ok (t.indent ++ keyStr ++ k.sep ++ s ++ t.commentWs ++ t.comment ++ t.trail)

end

/-! ### Basic lemmas about the state record -/

@[simp] theorem withBody_cbody (s : ContainerS) (b) : (s.withBody b).cbody = b := by
  cases s; rfl

@[simp] theorem withBody_cmap (s : ContainerS) (b) : (s.withBody b).cmap = s.cmap := by
  cases s; rfl

@[simp] theorem withBody_cparsed (s : ContainerS) (b) : (s.withBody b).cparsed = s.cparsed := by
  cases s; rfl

@[simp] theorem withBody_ctableKeys (s : ContainerS) (b) :
    (s.withBody b).ctableKeys = s.ctableKeys := by cases s; rfl

@[simp] theorem withBody_cshadow (s : ContainerS) (b) : (s.withBody b).cshadow = s.cshadow := by
  cases s; rfl

@[simp] theorem withMap_cmap (s : ContainerS) (m) : (s.withMap m).cmap = m := by
  cases s; rfl

@[simp] theorem withMap_cbody (s : ContainerS) (m) : (s.withMap m).cbody = s.cbody := by
  cases s; rfl

@[simp] theorem withMap_cparsed (s : ContainerS) (m) : (s.withMap m).cparsed = s.cparsed := by
  cases s; rfl

@[simp] theorem withMap_ctableKeys (s : ContainerS) (m) :
    (s.withMap m).ctableKeys = s.ctableKeys := by cases s; rfl

@[simp] theorem withMap_cshadow (s : ContainerS) (m) : (s.withMap m).cshadow = s.cshadow := by
  cases s; rfl

@[simp] theorem withShadow_cshadow (s : ContainerS) (sh) : (s.withShadow sh).cshadow = sh := by
  cases s; rfl

@[simp] theorem withShadow_cbody (s : ContainerS) (sh) : (s.withShadow sh).cbody = s.cbody := by
  cases s; rfl

@[simp] theorem withShadow_cmap (s : ContainerS) (sh) : (s.withShadow sh).cmap = s.cmap := by
  cases s; rfl

@[simp] theorem withShadow_cparsed (s : ContainerS) (sh) :
    (s.withShadow sh).cparsed = s.cparsed := by cases s; rfl

@[simp] theorem withShadow_ctableKeys (s : ContainerS) (sh) :
    (s.withShadow sh).ctableKeys = s.ctableKeys := by cases s; rfl

@[simp] theorem withTableKeys_ctableKeys (s : ContainerS) (t) :
    (s.withTableKeys t).ctableKeys = t := by cases s; rfl

@[simp] theorem withTableKeys_cbody (s : ContainerS) (t) :
    (s.withTableKeys t).cbody = s.cbody := by cases s; rfl

@[simp] theorem withTableKeys_cmap (s : ContainerS) (t) :
    (s.withTableKeys t).cmap = s.cmap := by cases s; rfl

@[simp] theorem withTableKeys_cparsed (s : ContainerS) (t) :
    (s.withTableKeys t).cparsed = s.cparsed := by cases s; rfl

@[simp] theorem withTableKeys_cshadow (s : ContainerS) (t) :
    (s.withTableKeys t).cshadow = s.cshadow := by cases s; rfl

@[simp] theorem mapLookup_withBody (s : ContainerS) (b) (k) :
    (s.withBody b).mapLookup k = s.mapLookup k := by
  cases s; rfl

@[simp] theorem mapLookup_withShadow (s : ContainerS) (sh) (k) :
    (s.withShadow sh).mapLookup k = s.mapLookup k := by
  cases s; rfl

@[simp] theorem shadowHas_withBody (s : ContainerS) (b) (k) :
    (s.withBody b).shadowHas k = s.shadowHas k := by
  cases s; rfl

@[simp] theorem shadowHas_withMap (s : ContainerS) (m) (k) :
    (s.withMap m).shadowHas k = s.shadowHas k := by
  cases s; rfl

/-! ### Association-list lemmas -/

theorem alLookup_alSet_self {κ : Type} [DecidableEq κ] {β : Type}
    (l : List (κ × β)) (k : κ) (v : β) : alLookup (alSet l k v) k = some v := by
  induction l with
  | nil => simp [alSet, alLookup, List.find?]
  | cons e rest ih =>
    by_cases h : e.1 = k
    · simp [alSet, h, alLookup, List.find?]
    · simp only [alSet, if_neg h]
      simpa [alLookup, List.find?, h] using ih

theorem alLookup_alSet_ne {κ : Type} [DecidableEq κ] {β : Type}
    (l : List (κ × β)) (k k' : κ) (v : β) (h : k' ≠ k) :
    alLookup (alSet l k v) k' = alLookup l k' := by
  induction l with
  | nil => simp [alSet, alLookup, List.find?, Ne.symm h]
  | cons e rest ih =>
    by_cases he : e.1 = k
    · simp [alSet, he, alLookup, List.find?, h, Ne.symm h]
    · by_cases he' : e.1 = k'
      · simp [alSet, he, alLookup, List.find?, he', h, Ne.symm h]
      · simp only [alSet, if_neg he]
        simpa [alLookup, List.find?, he'] using ih

theorem alLookup_alMapVal {κ : Type} [DecidableEq κ] {β : Type}
    (f : β → β) (l : List (κ × β)) (k : κ) :
    alLookup (alMapVal f l) k = (alLookup l k).map f := by
  induction l with
  | nil => simp [alMapVal, alLookup, List.find?]
  | cons e rest ih =>
    by_cases h : e.1 = k
    · simp [alMapVal, alLookup, List.find?, h]
    · simpa [alMapVal, alLookup, List.find?, h] using ih

theorem alLookup_alDel_self {κ : Type} [DecidableEq κ] {β : Type}
    (l : List (κ × β)) (k : κ) (hl : (l.map Prod.fst).Nodup) :
    alLookup (alDel l k) k = none := by
  induction l with
  | nil => simp [alDel, alLookup, List.find?]
  | cons e rest ih =>
    simp only [List.map_cons, List.nodup_cons] at hl
    by_cases h : e.1 = k
    · subst h
      cases hfind : rest.find? (fun x => x.1 = e.1) with
      | none => simp [alDel, alLookup, hfind]
      | some x =>
        have := List.find?_some hfind
        have hmem := List.find?_mem hfind
        simp at this
        exact absurd (this ▸ List.mem_map_of_mem Prod.fst hmem) hl.1
    · simp only [alDel, if_neg h]
      simpa [alLookup, List.find?, h] using ih hl.2

theorem alLookup_alDel_ne {κ : Type} [DecidableEq κ] {β : Type}
    (l : List (κ × β)) (k k' : κ) (h : k' ≠ k) :
    alLookup (alDel l k) k' = alLookup l k' := by
  induction l with
  | nil => simp [alDel, alLookup]
  | cons e rest ih =>
    by_cases he : e.1 = k
    · simp [alDel, he, alLookup, List.find?, h, Ne.symm h]
    · by_cases he' : e.1 = k'
      · simp [alDel, he, alLookup, List.find?, he', h, Ne.symm h]
      · simp only [alDel, if_neg he]
        simpa [alLookup, List.find?, he'] using ih

/-! ### Kind preservation under the trivia/name adjustments -/

theorem withTrivia_tableLike (f : Trivia → Trivia) (it : Item) :
    (it.withTrivia f).tableLike = it.tableLike := by
  cases it <;> rfl

theorem withTrivia_isTable (f : Trivia → Trivia) (it : Item) :
    (it.withTrivia f).isTable = it.isTable := by cases it <;> rfl

theorem withTrivia_isAot (f : Trivia → Trivia) (it : Item) :
    (it.withTrivia f).isAot = it.isAot := by cases it <;> rfl

theorem withTrivia_isAotElement (f : Trivia → Trivia) (it : Item) :
    (it.withTrivia f).isAotElement = it.isAotElement := by cases it <;> rfl

theorem withTrivia_isSuperTable (f : Trivia → Trivia) (it : Item) :
    (it.withTrivia f).isSuperTable = it.isSuperTable := by cases it <;> rfl

theorem withTrivia_isWs (f : Trivia → Trivia) (it : Item) :
    (it.withTrivia f).isWs = it.isWs := by cases it <;> rfl

theorem withTrivia_isNull (f : Trivia → Trivia) (it : Item) :
    (it.withTrivia f).isNull = it.isNull := by cases it <;> rfl

theorem withTrivia_isFixedWs (f : Trivia → Trivia) (it : Item) :
    (it.withTrivia f).isFixedWs = it.isFixedWs := by cases it <;> rfl

theorem withTrivia_skipItem (f : Trivia → Trivia) (it : Item) :
    skipItem (it.withTrivia f) = skipItem it := by
  simp [skipItem, withTrivia_isNull, withTrivia_isWs, withTrivia_isFixedWs]

theorem setName_tableLike (n : Option String) (it : Item) :
    (it.setName n).tableLike = it.tableLike := by cases it <;> rfl

theorem setName_isTable (n : Option String) (it : Item) :
    (it.setName n).isTable = it.isTable := by cases it <;> rfl

theorem setName_isAot (n : Option String) (it : Item) :
    (it.setName n).isAot = it.isAot := by cases it <;> rfl

theorem setName_isAotElement (n : Option String) (it : Item) :
    (it.setName n).isAotElement = it.isAotElement := by cases it <;> rfl

theorem setName_isSuperTable (n : Option String) (it : Item) :
    (it.setName n).isSuperTable = it.isSuperTable := by cases it <;> rfl

theorem setName_isWs (n : Option String) (it : Item) :
    (it.setName n).isWs = it.isWs := by cases it <;> rfl

theorem setName_isNull (n : Option String) (it : Item) :
    (it.setName n).isNull = it.isNull := by cases it <;> rfl

theorem invalidateDN_tableLike (fuel : Nat) (it : Item) :
    (invalidateDN fuel it).tableLike = it.tableLike := by
  cases fuel <;> cases it <;> rfl

theorem invalidateDN_isTable (fuel : Nat) (it : Item) :
    (invalidateDN fuel it).isTable = it.isTable := by
  cases fuel <;> cases it <;> rfl

theorem invalidateDN_isAot (fuel : Nat) (it : Item) :
    (invalidateDN fuel it).isAot = it.isAot := by
  cases fuel <;> cases it <;> rfl

theorem invalidateDN_isAotElement (fuel : Nat) (it : Item) :
    (invalidateDN fuel it).isAotElement = it.isAotElement := by
  cases fuel <;> cases it <;> rfl

theorem invalidateDN_isSuperTable (fuel : Nat) (it : Item) :
    (invalidateDN fuel it).isSuperTable = it.isSuperTable := by
  cases fuel <;> cases it <;> rfl

theorem invalidateDN_isWs (fuel : Nat) (it : Item) :
    (invalidateDN fuel it).isWs = it.isWs := by
  cases fuel <;> cases it <;> rfl

theorem invalidateDN_isNull (fuel : Nat) (it : Item) :
    (invalidateDN fuel it).isNull = it.isNull := by
  cases fuel <;> cases it <;> rfl

theorem invalidateDN_skipItem (fuel : Nat) (it : Item) :
    skipItem (invalidateDN fuel it) = skipItem it := by
  cases fuel <;> cases it <;> rfl

theorem invalidateDN_scalar (fuel : Nat) (it : Item) (h : it.tableLike = false) :
    invalidateDN fuel it = it := by
  cases fuel <;> cases it <;> first | rfl | simp [Item.tableLike] at h

theorem nameStep_flags (k : KeyS) (it : Item) :
    (nameStep k it).tableLike = it.tableLike ∧ (nameStep k it).isTable = it.isTable
    ∧ (nameStep k it).isAot = it.isAot
    ∧ (nameStep k it).isAotElement = it.isAotElement
    ∧ (nameStep k it).isSuperTable = it.isSuperTable
    ∧ skipItem (nameStep k it) = skipItem it := by
  unfold nameStep
  split
  · exact ⟨setName_tableLike _ _, setName_isTable _ _, setName_isAot _ _,
      setName_isAotElement _ _, setName_isSuperTable _ _, by
        simp [skipItem, setName_isNull, setName_isWs]
        cases it <;> rfl⟩
  · exact ⟨rfl, rfl, rfl, rfl, rfl, rfl⟩

/-- `tableIndentStep` returns the item, its display-name-invalidated form,
or one of those with the indent set to a newline. -/
theorem tableIndentStep_shape (fuel : Nat) (s : ContainerS) (k : KeyS) (pw : Bool)
    (it : Item) :
    tableIndentStep fuel s k pw it = it
    ∨ tableIndentStep fuel s k pw it = invalidateDN fuel it
    ∨ tableIndentStep fuel s k pw it =
        it.withTrivia (fun t => { t with indent := "\n" })
    ∨ tableIndentStep fuel s k pw it =
        (invalidateDN fuel it).withTrivia (fun t => { t with indent := "\n" }) := by
  unfold tableIndentStep
  split
  · split
    · dsimp only
      split
      · right; right; right; rfl
      · right; left; rfl
    · dsimp only
      split
      · right; right; left; rfl
      · left; rfl
  · left; rfl

theorem tableIndentStep_flags (fuel : Nat) (s : ContainerS) (k : KeyS) (pw : Bool)
    (it : Item) :
    (tableIndentStep fuel s k pw it).tableLike = it.tableLike
    ∧ (tableIndentStep fuel s k pw it).isTable = it.isTable
    ∧ (tableIndentStep fuel s k pw it).isAot = it.isAot
    ∧ (tableIndentStep fuel s k pw it).isAotElement = it.isAotElement
    ∧ (tableIndentStep fuel s k pw it).isSuperTable = it.isSuperTable
    ∧ skipItem (tableIndentStep fuel s k pw it) = skipItem it := by
  rcases tableIndentStep_shape fuel s k pw it with h | h | h | h <;> rw [h] <;>
    simp [withTrivia_tableLike, withTrivia_isTable, withTrivia_isAot,
      withTrivia_isAotElement, withTrivia_isSuperTable, withTrivia_skipItem,
      invalidateDN_tableLike, invalidateDN_isTable, invalidateDN_isAot,
      invalidateDN_isAotElement, invalidateDN_isSuperTable, invalidateDN_skipItem]

/-- Whatever `aotStep` returns is the item itself or has the same flags as
an AoT built from the invalidated item's fields. -/
theorem aotStep_shape (fuel : Nat) (s : ContainerS) (pw : Bool) (it : Item) :
    aotStep fuel s pw it = it
    ∨ aotStep fuel s pw it = invalidateDN fuel it
    ∨ ∃ ts ts' n p t, invalidateDN fuel it = .aot ts n p t
        ∧ aotStep fuel s pw it = .aot ts' n p t := by
  unfold aotStep
  split
  · rename_i hcond
    cases hdn : invalidateDN fuel it with
    | aot ts n p t =>
      simp only [hdn]
      cases h0 : ts[0]? with
      | some t0 =>
        simp only [h0]
        split
        · right; right; exact ⟨ts, _, n, p, t, rfl, rfl⟩
        · right; right; exact ⟨ts, ts, n, p, t, rfl, rfl⟩
      | none => right; left; simp [h0]
    | ws a b => right; left; simp [hdn]
    | comment a => right; left; simp [hdn]
    | boolItem a b => right; left; simp [hdn]
    | integer a b c d => right; left; simp [hdn]
    | stringItem a b c => right; left; simp [hdn]
    | arrayItem a b c d => right; left; simp [hdn]
    | inlineTable a b c => right; left; simp [hdn]
    | table a b c d e f => right; left; simp [hdn]
    | nullItem => right; left; simp [hdn]
  · left; rfl

theorem aotStep_flags (fuel : Nat) (s : ContainerS) (pw : Bool) (it : Item) :
    (aotStep fuel s pw it).tableLike = it.tableLike
    ∧ (aotStep fuel s pw it).isTable = it.isTable
    ∧ (aotStep fuel s pw it).isAot = it.isAot
    ∧ (aotStep fuel s pw it).isAotElement = it.isAotElement
    ∧ (aotStep fuel s pw it).isSuperTable = it.isSuperTable
    ∧ skipItem (aotStep fuel s pw it) = skipItem it := by
  rcases aotStep_shape fuel s pw it with h | h | ⟨ts, ts', n, p, t, hdn, h⟩
  · rw [h]; exact ⟨rfl, rfl, rfl, rfl, rfl, rfl⟩
  · rw [h]
    simp [invalidateDN_tableLike, invalidateDN_isTable, invalidateDN_isAot,
      invalidateDN_isAotElement, invalidateDN_isSuperTable, invalidateDN_skipItem]
  · rw [h]
    have h1 := invalidateDN_tableLike fuel it
    have h2 := invalidateDN_isTable fuel it
    have h3 := invalidateDN_isAot fuel it
    have h4 := invalidateDN_isAotElement fuel it
    have h5 := invalidateDN_isSuperTable fuel it
    have h6 := invalidateDN_skipItem fuel it
    rw [hdn] at h1 h2 h3 h4 h5 h6
    exact ⟨h1 ▸ rfl, h2 ▸ rfl, h3 ▸ rfl, h4 ▸ rfl, h5 ▸ rfl, h6 ▸ rfl⟩

theorem adjustItemK_flags (fuel : Nat) (s : ContainerS) (k : KeyS) (it : Item) :
    (adjustItemK fuel s k it).tableLike = it.tableLike
    ∧ (adjustItemK fuel s k it).isTable = it.isTable
    ∧ (adjustItemK fuel s k it).isAot = it.isAot
    ∧ (adjustItemK fuel s k it).isAotElement = it.isAotElement
    ∧ (adjustItemK fuel s k it).isSuperTable = it.isSuperTable
    ∧ skipItem (adjustItemK fuel s k it) = skipItem it := by
  unfold adjustItemK
  obtain ⟨a1, a2, a3, a4, a5, a6⟩ := nameStep_flags k it
  obtain ⟨b1, b2, b3, b4, b5, b6⟩ :=
    tableIndentStep_flags fuel s k (prevWsOf s) (nameStep k it)
  obtain ⟨c1, c2, c3, c4, c5, c6⟩ :=
    aotStep_flags fuel s (prevWsOf s) (tableIndentStep fuel s k (prevWsOf s) (nameStep k it))
  exact ⟨by rw [c1, b1, a1], by rw [c2, b2, a2], by rw [c3, b3, a3],
    by rw [c4, b4, a4], by rw [c5, b5, a5], by rw [c6, b6, a6]⟩

/-- A non-table item passes through the keyed adjustment unchanged: only
the `Table` and `AoT` branches of lines 83-97 touch the item. -/
theorem adjustItemK_scalar (fuel : Nat) (s : ContainerS) (k : KeyS) (it : Item)
    (h : it.tableLike = false) : adjustItemK fuel s k it = it := by
  unfold adjustItemK aotStep tableIndentStep nameStep
  cases it <;> simp_all [Item.tableLike, Item.isTable, Item.isAot]

/-! ### C7 — Integer arithmetic raw forms -/

/-- The raw form the specification describes for an arithmetic result: the
decimal representation of the result, with an explicit leading sign
character exactly when the operand's raw form had one. -/
def claimedRaw (signed : Bool) (n : Int) : String :=
  if signed then (if 0 ≤ n then "+" ++ toString n else "-" ++ toString (-n))
  else toString n

/-- C7: the claim fails on the code.  `Integer._new` builds
`raw = str(result)` and, for a signed operand, prepends a sign character to
that string even when `str(result)` already starts with `-`: subtracting 4
from the integer parsed from `+2` yields the item with value `-2` whose raw
lexical form is `"--2"`, which is not a decimal representation of `-2`
(the correct signed form would be `"-2"`). -/
theorem c7_integer_sub_doubled_sign :
    integerSub (mkInteger 2 Trivia.mkDefault "+2") 4 =
      .ok (mkInteger (-2) Trivia.mkDefault "--2")
    ∧ claimedRaw true (-2) = "-2"
    ∧ "--2" ≠ claimedRaw true (-2)
    ∧ (integerAdd (mkInteger 2 Trivia.mkDefault "+2") 3 =
        .ok (mkInteger 5 Trivia.mkDefault "+5")) := by
  refine ⟨rfl, by decide, by decide, rfl⟩

/-! ### C10 — Bool equality -/

/-- C10 counterexample: comparing a `Bool` item against *itself* (`b == b`)
returns `True` in Python — both `__eq__` calls return `NotImplemented` and
`==` falls back to object identity — yet the item is not a native bool, so
"`b == x` holds iff `x` is a native bool equal to `b`'s value" is false at
`x = b`. -/
theorem c10_counterexample :
    pyEqBoolItem true 0 (.pboolItem true 0) = true
    ∧ (PyOperand.pboolItem true 0).isNativeBool = false := by decide

/-- C10 amended: for every operand `x` that is not the `Bool` item itself
(no shared object id), `b == x` holds iff `x` is the equal native bool; in
particular comparison against ints (`0`/`1` included), strings and other
`Bool` items is never equal, while `bool(b)` and `hash(b)` agree with the
underlying native boolean. -/
theorem c10_amended (value : Bool) (oid : Nat) (x : PyOperand)
    (h : ∀ v : Bool, x ≠ .pboolItem v oid) :
    (pyEqBoolItem value oid x = true ↔ x = .pbool value)
    ∧ boolDunderBool value = value
    ∧ pyHashBoolItem value = pyHashNativeBool value := by
  refine ⟨?_, rfl, rfl⟩
  cases x with
  | pbool b =>
    cases b <;> cases value <;>
      simp [pyEqBoolItem, boolEqMeth, operandEqMethBoolItem]
  | pint n => simp [pyEqBoolItem, boolEqMeth, operandEqMethBoolItem]
  | pstr s => simp [pyEqBoolItem, boolEqMeth, operandEqMethBoolItem]
  | pboolItem v o =>
    have hne : o ≠ oid := by
      intro he; exact h v (by rw [he])
    simp [pyEqBoolItem, boolEqMeth, operandEqMethBoolItem]
    intro he
    exact absurd he.symm hne

theorem c10_witness :
    (∀ v : Bool, PyOperand.pint 1 ≠ .pboolItem v 0)
    ∧ (pyEqBoolItem true 0 (.pint 1) = true ↔ PyOperand.pint 1 = .pbool true) :=
  ⟨by decide, (c10_amended true 0 (.pint 1) (by decide)).1⟩

/-! ### C9 — slice assignment on Array -/

/-- The array the coercion builds for the host list `[1, 2]`:
`_value = [1, ",", " ", 2]` and public list `[1, 2]`. -/
def c9arr : AState :=
  ⟨[mkInteger 1 Trivia.mkDefault "1", .ws "," false, .ws " " false,
    mkInteger 2 Trivia.mkDefault "2"],
   [.obj (mkInteger 1 Trivia.mkDefault "1"), .obj (mkInteger 2 Trivia.mkDefault "2")]⟩

/-- C9: the code violates the "container left unchanged" guarantee.
`Array.__setitem__` performs `list.__setitem__(self, key, it.value)` *before*
checking for a slice key, so `a[0:2] = [9]` on the array built from `[1, 2]`
raises `ValueError` only after the public element list has been spliced to
`[9]`; the internal `_value` sequence stays untouched. -/
theorem c9_slice_assign_mutates :
    itemOf 100 false (.hlist [.hint 1, .hint 2]) =
      .ok (.arrayItem c9arr.value c9arr.publ Trivia.mkDefault false)
    ∧ arraySetItem 100 c9arr (.slice 0 2) (.hlist [.hint 9]) =
        .err .valueError ⟨c9arr.value, [.obj (mkInteger 9 Trivia.mkDefault "9")]⟩
    ∧ c9arr.publ.length = 2 := by
  refine ⟨rfl, rfl, rfl⟩

/-! ### C4 — item accessor vs map read -/

/-- A parsed container holding a single Bool binding `b = true`. -/
def c4cont : ContainerS :=
  .mk [(some "b", .one 0)] [(some (KeyS.bare "b"), .boolItem true Trivia.mkDefault)]
    true [] [("b", .nbool true)]

/-- Discriminates results that are a native-value unwrap. -/
def isNativeRes : Except AErr GetResult → Bool
  | .ok (.native _) => true
  | _ => false

/-- C4 counterexample: `Container.item` returns the stored `Bool` *wrapper*
unchanged (container.py:354 has no unwrapping); only `__getitem__` unwraps
to the native bool.  The claim's assertion that the item accessor unwraps
Bool is therefore false. -/
theorem c4_counterexample :
    itemAcc 10 c4cont (KeyS.bare "b") = .ok (.item (.boolItem true Trivia.mkDefault))
    ∧ isNativeRes (itemAcc 10 c4cont (KeyS.bare "b")) = false
    ∧ getItemC 10 c4cont (KeyS.bare "b") = .ok (.native (.nbool true)) := by
  refine ⟨rfl, rfl, rfl⟩

/-- C4 amended: for a key bound to a single body position, `item` returns
the stored `Item` unchanged — the `Bool` wrapper included — while the map
read `c[k]` unwraps a `Bool` item to the native bool and returns every other
item unchanged; a bucketed entry yields an `OutOfOrderTableProxy` from both
accessors, and a missing key raises `NonExistentKey` in both. -/
theorem c4_amended (fuel : Nat) (s : ContainerS) (k : KeyS) :
    (s.mapLookup (some k.key) = none →
      itemAcc fuel s k = .error .nonExistentKey
      ∧ getItemC fuel s k = .error .nonExistentKey)
    ∧ (∀ i e, s.mapLookup (some k.key) = some (.one i) → s.cbody[i]? = some e →
        itemAcc fuel s k = .ok (.item e.2)
        ∧ getItemC fuel s k =
            .ok (if e.2.isBoolean then .native e.2.pyValue else .item e.2)
        ∧ (∀ b t, e.2 = .boolItem b t → getItemC fuel s k = .ok (.native (.nbool b))))
    ∧ (∀ is p, s.mapLookup (some k.key) = some (.many is) → buildProxy fuel s is = .ok p →
        itemAcc fuel s k = .ok (.proxy p) ∧ getItemC fuel s k = .ok (.proxy p)) := by
  refine ⟨fun h => ?_, fun i e h1 h2 => ?_, fun is p h1 h2 => ?_⟩
  · constructor <;> simp [itemAcc, getItemC, h]
  · refine ⟨by simp [itemAcc, h1, h2],
      by simp only [getItemC, h1, h2]; split <;> simp_all, fun b t hb => ?_⟩
    simp [getItemC, h1, h2, hb, Item.isBoolean, Item.pyValue]
  · constructor <;> simp [itemAcc, getItemC, h1, h2]

theorem c4_amended_witness :
    (c4cont.mapLookup (some "b") = some (.one 0))
    ∧ itemAcc 10 c4cont (KeyS.bare "b") =
        .ok (.item (.boolItem true Trivia.mkDefault)) :=
  ⟨rfl, ((c4_amended 10 c4cont (KeyS.bare "b")).2.1 0
      (some (KeyS.bare "b"), .boolItem true Trivia.mkDefault) rfl rfl).1⟩

/-! ### C6 — list coercion -/

theorem tableLike_of_isTable {it : Item} (h : it.isTable = true) :
    it.tableLike = true := by
  cases it <;> simp_all [Item.isTable, Item.tableLike]

theorem tableLike_of_isAot {it : Item} (h : it.isAot = true) :
    it.tableLike = true := by
  cases it <;> simp_all [Item.isAot, Item.tableLike]

theorem isAot_false_of_isTable {it : Item} (h : it.isTable = true) :
    it.isAot = false := by
  cases it <;> simp_all [Item.isTable, Item.isAot]

theorem isTable_false_of_not_tableLike {it : Item} (h : it.tableLike = false) :
    it.isTable = false := by
  cases it <;> simp_all [Item.tableLike, Item.isTable]

theorem isAot_false_of_not_tableLike {it : Item} (h : it.tableLike = false) :
    it.isAot = false := by
  cases it <;> simp_all [Item.tableLike, Item.isAot]

/-- The container built by appending `a = 1` then `b = 2` to an empty
unparsed container. -/
def c3cont : ContainerS :=
  .mk [(some "a", .one 0), (some "b", .one 1)]
    [(some (KeyS.bare "a"), mkInteger 1 Trivia.mkDefault "1"),
     (some (KeyS.bare "b"), mkInteger 2 Trivia.mkDefault "2")]
    false []
    [("a", .obj (mkInteger 1 Trivia.mkDefault "1")),
     ("b", .obj (mkInteger 2 Trivia.mkDefault "2"))]

/-! ### C2 — duplicate-key appends raise and leave the container unchanged -/

/-- C2: in every non-mergeable duplicate-key case — the existing entry is a
non-table; both existing and new are plain (non-super, non-aot-element)
tables; the existing entry is an AoT and the new item a table that is not an
AoT element; or the new item is a non-table — `append` raises
`KeyAlreadyPresent`, and the error state is the *original* container `s`:
body, index, shadow map and `table_keys` are all untouched (lines 83-97 only
mutate the appended item). -/
theorem c2_append_duplicate_raises (fuel : Nat) (s : ContainerS) (k : KeyS) (item : Item)
    (e : IdxE) (cpos : Nat) (cbe : Option KeyS × Item)
    (hsh : s.shadowHas k.key = true)
    (hm : s.mapLookup (some k.key) = some e)
    (hlast : e.lastPos = some cpos)
    (hb : s.cbody[cpos]? = some cbe)
    (hcase : cbe.2.tableLike = false
      ∨ (cbe.2.isTable = true ∧ cbe.2.isSuperTable = false ∧ item.isTable = true
         ∧ item.isAotElement = false ∧ item.isSuperTable = false)
      ∨ (cbe.2.isAot = true ∧ item.isTable = true ∧ item.isAotElement = false)
      ∨ item.tableLike = false) :
    appendC (fuel + 2) s (some k) item = .err .keyAlreadyPresent s := by
  obtain ⟨f1, f2, f3, f4, f5, _⟩ := adjustItemK_flags (fuel + 1) s k item
  have hd : dupAppend (fuel + 1) s k (adjustItemK (fuel + 1) s k item) =
      some (.err .keyAlreadyPresent s) := by
    rcases hcase with hA | ⟨hB1, hB2, hB3, hB4, hB5⟩ | ⟨hC1, hC2, hC3⟩ | hD
    · by_cases hT : item.isTable
      · simp [dupAppend, hm, hlast, hb, f2, hT, hA]
      · by_cases hAo : item.isAot
        · simp [dupAppend, hm, hlast, hb, f2, f3, hT, hAo, hA,
            isAot_false_of_not_tableLike hA]
        · simp [dupAppend, hm, hlast, hb, f2, f3, hT, hAo]
    · simp [dupAppend, hm, hlast, hb, f2, f4, f5, hB3, hB4, hB5,
        tableLike_of_isTable hB1, isAot_false_of_isTable hB1, hB1, hB2]
    · simp [dupAppend, hm, hlast, hb, f2, f4, hC2, hC3,
        tableLike_of_isAot hC1, hC1]
    · simp [dupAppend, hm, hlast, hb, f2, f3,
        isTable_false_of_not_tableLike hD, isAot_false_of_not_tableLike hD]
  simp only [appendC, hsh, if_true, hd]

/-- Witness: re-appending `a` (bound to an integer) on the two-scalar
container raises `KeyAlreadyPresent` with the exact original state. -/
theorem c2_witness :
    appendC 2 c3cont (some (KeyS.bare "a")) (mkInteger 5 Trivia.mkDefault "5") =
      .err .keyAlreadyPresent c3cont :=
  c2_append_duplicate_raises 0 c3cont (KeyS.bare "a") (mkInteger 5 Trivia.mkDefault "5")
    (.one 0) 0 (some (KeyS.bare "a"), mkInteger 1 Trivia.mkDefault "1")
    (by rfl) (by rfl) (by rfl) (by rfl) (Or.inr (Or.inr (Or.inr (by rfl))))


/-- The state `_insert_after` produces on its success path: anchor trail
fixed when needed, indices above the anchor shifted, the new binding and
body entry at `p + 1`, the shadow extended. -/
def c8State (s : ContainerS) (nk : KeyS) (item : Item) (p : Nat)
    (cur : Option KeyS × Item) (t : Trivia) : ContainerS :=
  let s1 := if t.trail.contains '\n' then s
    else s.withBody (s.cbody.set p (cur.1, cur.2.withTrivia
      (fun tr => { tr with trail := tr.trail ++ "\n" })))
  let m := alSet (alMapVal (IdxE.shift (fun v => decide (p < v))) s1.cmap)
    (some nk.key) (.one (p + 1))
  ((s1.withMap m).withBody (pyInsert s1.cbody (p + 1) (some nk, item))).withShadow
    (alSet s.cshadow nk.key item.pyValue)

/-- C8: `insert_after` raises `NonExistentKey` (container unchanged) when
the anchor is absent; when present it resolves the anchor to the *maximum*
body position of its index entry, appends a newline to the anchor item's
trail when it has none, shifts every index position strictly greater than
the anchor position up by one (element-wise in buckets), inserts the new
entry at `anchor + 1` and binds the new key to that position. -/
theorem c8_insert_after (s : ContainerS) (ak nk : KeyS) (item : Item) :
    (s.shadowHas ak.key = false →
      s.insertAfterC (some ak) nk item = .err .nonExistentKey s)
    ∧ (∀ e p cur t,
        s.shadowHas ak.key = true →
        s.mapLookup (some ak.key) = some e →
        e.resolveMax = some p →
        s.cbody[p]? = some cur →
        cur.2.triviaE = .ok t →
        ∃ s', s.insertAfterC (some ak) nk item = .ok s'
          ∧ s'.cbody = pyInsert
              (if t.trail.contains '\n' then s.cbody
               else s.cbody.set p (cur.1, cur.2.withTrivia
                 (fun tr => { tr with trail := tr.trail ++ "\n" })))
              (p + 1) (some nk, item)
          ∧ s'.mapLookup (some nk.key) = some (.one (p + 1))
          ∧ (∀ k', k' ≠ some nk.key →
              s'.mapLookup k' =
                (s.mapLookup k').map (IdxE.shift (fun v => decide (p < v))))
          ∧ s'.cshadow = alSet s.cshadow nk.key item.pyValue
          ∧ s'.cparsed = s.cparsed ∧ s'.ctableKeys = s.ctableKeys) := by
  constructor
  · intro h
    simp [ContainerS.insertAfterC, h]
  · intro e p cur t hsh hm hmax hb ht
    refine ⟨c8State s nk item p cur t, ?_, ?_, ?_, ?_, ?_, ?_, ?_⟩
    · by_cases htr : t.trail.contains '\n' <;>
        simp [ContainerS.insertAfterC, c8State, hsh, hm, hmax, hb, ht, htr]
    · by_cases htr : t.trail.contains '\n' <;> simp [c8State, htr]
    · simp [c8State, ContainerS.mapLookup, alLookup_alSet_self]
    · intro k' hk'
      by_cases htr : t.trail.contains '\n' <;>
        simp [c8State, htr, ContainerS.mapLookup, alLookup_alSet_ne _ _ _ _ hk',
          alLookup_alMapVal]
    · simp [c8State]
    · by_cases htr : t.trail.contains '\n' <;> simp [c8State, htr]
    · by_cases htr : t.trail.contains '\n' <;> simp [c8State, htr]

/-- Witness for C8 on the two-scalar container: inserting `c = 3` after
`a` lands at position 1 and shifts `b` to position 2. -/
theorem c8_witness :
    ∃ s', c3cont.insertAfterC (some (KeyS.bare "a")) (KeyS.bare "c")
        (mkInteger 3 Trivia.mkDefault "3") = .ok s'
      ∧ s'.mapLookup (some "c") = some (.one 1)
      ∧ (∀ k', k' ≠ some "c" →
          s'.mapLookup k' =
            (c3cont.mapLookup k').map (IdxE.shift (fun v => decide (0 < v)))) := by
  obtain ⟨s', h1, _, h3, h4, _⟩ := (c8_insert_after c3cont (KeyS.bare "a") (KeyS.bare "c")
      (mkInteger 3 Trivia.mkDefault "3")).2 (.one 0) 0
    (some (KeyS.bare "a"), mkInteger 1 Trivia.mkDefault "1") Trivia.mkDefault
    rfl rfl rfl rfl rfl
  exact ⟨s', h1, h3, h4⟩

/-! ### C3 — remove -/

theorem tombRemove_spec (k : KeyS) :
    ∀ (ps : List Nat) (s : ContainerS),
    (∀ p ∈ ps, p < s.cbody.length) →
    s.shadowHas k.key = true →
    ∃ s', ContainerS.tombRemove k s ps = .ok s'
      ∧ s'.cbody.length = s.cbody.length
      ∧ (∀ p ∈ ps, s'.cbody[p]? = some (none, .nullItem))
      ∧ (∀ q, q ∉ ps → s'.cbody[q]? = s.cbody[q]?)
      ∧ s'.cmap = s.cmap ∧ s'.cshadow = alDel s.cshadow k.key
      ∧ s'.cparsed = s.cparsed ∧ s'.ctableKeys = s.ctableKeys := by
  intro ps
  induction ps with
  | nil =>
    intro s _ hsh
    exact ⟨s.withShadow (alDel s.cshadow k.key), by simp [ContainerS.tombRemove, hsh],
      by simp, by simp, by simp, by simp, by simp, by simp, by simp⟩
  | cons p rest ih =>
    intro s hin hsh
    have hp : p < s.cbody.length := hin p (List.mem_cons_self p rest)
    have hin' : ∀ q ∈ rest, q < (s.withBody (s.cbody.set p (none, .nullItem))).cbody.length := by
      intro q hq
      simpa using hin q (List.mem_cons_of_mem p hq)
    obtain ⟨s', h1, h2, h3, h4, h5, h6, h7, h8⟩ :=
      ih (s.withBody (s.cbody.set p (none, .nullItem))) hin' (by simpa using hsh)
    refine ⟨s', by simp [ContainerS.tombRemove, hp, h1], by simpa using h2, ?_, ?_,
      by simpa using h5,
      by simpa using h6, by simpa using h7, by simpa using h8⟩
    · intro q hq
      rcases List.mem_cons.1 hq with hq | hq
      · subst hq
        by_cases hqr : q ∈ rest
        · exact h3 q hqr
        · rw [h4 q hqr]
          simp [List.getElem?_set, hp]
      · exact h3 q hq
    · intro q hq
      have hq1 : q ≠ p := fun he => hq (he ▸ List.mem_cons_self p rest)
      have hq2 : q ∉ rest := fun hm => hq (List.mem_cons_of_mem p hm)
      rw [h4 q hq2]
      simp [List.getElem?_set, Ne.symm hq1]

/-- C3: `remove` raises `NonExistentKey` and leaves the container unchanged
when the key is absent from the index; when present, it overwrites exactly
the recorded body position(s) with `(None, Null())` tombstones, preserves
the body length and every other entry, and deletes the key from both the
index and the shadow map (whose entry must exist, as it does in every
container the operations build). -/
theorem c3_remove (s : ContainerS) (k : KeyS) :
    (s.mapLookup (some k.key) = none → s.removeC k = .err .nonExistentKey s)
    ∧ (∀ e, s.mapLookup (some k.key) = some e →
        (∀ p ∈ e.toList, p < s.cbody.length) →
        s.shadowHas k.key = true →
        ∃ s', s.removeC k = .ok s'
          ∧ s'.cbody.length = s.cbody.length
          ∧ (∀ p ∈ e.toList, s'.cbody[p]? = some (none, .nullItem))
          ∧ (∀ q, q ∉ e.toList → s'.cbody[q]? = s.cbody[q]?)
          ∧ s'.cmap = alDel s.cmap (some k.key)
          ∧ s'.cshadow = alDel s.cshadow k.key
          ∧ s'.cparsed = s.cparsed ∧ s'.ctableKeys = s.ctableKeys) := by
  constructor
  · intro h
    simp [ContainerS.removeC, h]
  · intro e he hin hsh
    obtain ⟨s', h1, h2, h3, h4, h5, h6, h7, h8⟩ :=
      tombRemove_spec k e.toList (s.withMap (alDel s.cmap (some k.key)))
        (by simpa using hin) (by simpa using hsh)
    exact ⟨s', by simp [ContainerS.removeC, he, h1], by simpa using h2,
      fun p hp => h3 p hp, fun q hq => by rw [h4 q hq]; simp,
      by simpa using h5, by simpa using h6, by simpa using h7, by simpa using h8⟩

theorem c3_remove_witness :
    ∃ s', c3cont.removeC (KeyS.bare "a") = .ok s'
      ∧ s'.cbody.length = c3cont.cbody.length
      ∧ s'.cbody[0]? = some (none, .nullItem) := by
  obtain ⟨s', h1, h2, h3, _⟩ := (c3_remove c3cont (KeyS.bare "a")).2 (.one 0) rfl
    (by intro p hp; simp [IdxE.toList] at hp; subst hp
        show 0 < (2 : Nat)
        decide) rfl
  exact ⟨s', h1, h2, h3 0 (by simp [IdxE.toList])⟩


/-! ### C5 — trivia inheritance on replacement -/

/-- The item of the parsed binding `x = 1   # keep`. -/
def c5item : Item := mkInteger 1 ⟨"", "   ", "# keep", "\n"⟩ "1"

/-- The parsed container holding that single binding. -/
def c5cont : ContainerS :=
  .mk [(some "x", .one 0)] [(some (KeyS.bare "x"), c5item)] true [] [("x", .obj c5item)]

/-- The trivia `_replace_at` gives the replacing value (container.py:584-588):
old indent and trail always; old comment whitespace and comment only when the
new value's own are empty. -/
def inheritedTrivia (vt nt : Trivia) : Trivia :=
  ⟨vt.indent, if nt.commentWs.isEmpty then vt.commentWs else nt.commentWs,
   if nt.comment.isEmpty then vt.comment else nt.comment, vt.trail⟩

/-- The state `_replace_at` produces on the scalar-for-scalar path. -/
def c5State (s : ContainerS) (idx : Nat) (newKey : KeyS) (value : Item)
    (vt nt : Trivia) (k0 : KeyS) (j : Nat) : ContainerS :=
  (s.withMap (alSet (alDel s.cmap (some k0.key)) (some newKey.key) (.one j))).withBody
    (s.cbody.set idx (some newKey, value.withTrivia (fun _ => inheritedTrivia vt nt)))

/-- C5: replacing an existing non-table body entry with a new non-table
value through `_replace_at` stores the new item with the old item's indent
and trail, and with the old comment whitespace and comment whenever the new
item's own are empty; every other body entry, the shadow map, the parsed
flag and `table_keys` are untouched.  Consequently (second conjunct),
setting `c["x"] = 42` on the parsed binding `x = 1   # keep` renders as
`x = 42   # keep` with the same indent, comment whitespace, comment and
trail. -/
theorem c5_replace_inherits_trivia (fuel : Nat) (s : ContainerS) (idx : Nat)
    (newKey : KeyS) (value : Item) (k0 : KeyS) (v : Item) (vt nt : Trivia) (j : Nat)
    (hb : s.cbody[idx]? = some (some k0, v))
    (hk : k0.key = newKey.key)
    (hm : s.mapLookup (some k0.key) = some (.one j))
    (hvt : v.triviaE = .ok vt)
    (hnt : value.triviaE = .ok nt)
    (hscal : value.tableLike = false)
    (hws : value.isWs = false) :
    (∃ s', replaceAtC (fuel + 2) s (.one idx) newKey value = .ok s'
      ∧ s'.cbody = s.cbody.set idx
          (some newKey, value.withTrivia (fun _ => inheritedTrivia vt nt))
      ∧ s'.cshadow = s.cshadow ∧ s'.cparsed = s.cparsed
      ∧ s'.ctableKeys = s.ctableKeys)
    ∧ (∃ s5, containerSetItem 30 c5cont (KeyS.bare "x")
          (mkInteger 42 Trivia.mkDefault "42") = .ok s5
        ∧ containerAsString 30 s5 = .ok "x = 42   # keep\n") := by
  constructor
  · have hdn : invalidateDN (fuel + 1) value = value :=
      invalidateDN_scalar (fuel + 1) value hscal
    have haot : value.isAot = false := isAot_false_of_not_tableLike hscal
    have htab : value.isTable = false := isTable_false_of_not_tableLike hscal
    have hpe : keyPyEqOpt (some newKey) (some k0) = true := by
      simp [keyPyEqOpt, hk]
    refine ⟨c5State s idx newKey value vt nt k0 j, ?_, ?_, ?_, ?_, ?_⟩
    · simp [replaceAtC, hb, hm, hpe, hdn, hscal, hws, haot, hvt, hnt,
        replaceFinish, withTrivia_isTable, htab, inheritedTrivia, c5State]
    · simp [c5State]
    · simp [c5State]
    · simp [c5State]
    · simp [c5State]
  · exact ⟨(containerSetItem 30 c5cont (KeyS.bare "x")
        (mkInteger 42 Trivia.mkDefault "42")).state, rfl, rfl⟩

/-- Witness for C5 on the concrete scenario: replacing the value at
position 0 of the parsed container carries the old trivia onto `42`. -/
theorem c5_witness :
    ∃ s', replaceAtC 12 c5cont (.one 0) (KeyS.bare "x")
        (mkInteger 42 Trivia.mkDefault "42") = .ok s'
      ∧ s'.cbody = c5cont.cbody.set 0 (some (KeyS.bare "x"),
          (mkInteger 42 Trivia.mkDefault "42").withTrivia
            (fun _ => inheritedTrivia ⟨"", "   ", "# keep", "\n"⟩ Trivia.mkDefault)) := by
  obtain ⟨⟨s', h1, h2, _⟩, _⟩ := c5_replace_inherits_trivia 10 c5cont 0 (KeyS.bare "x")
    (mkInteger 42 Trivia.mkDefault "42") (KeyS.bare "x") c5item
    ⟨"", "   ", "# keep", "\n"⟩ Trivia.mkDefault 0 rfl rfl rfl rfl rfl rfl rfl
  exact ⟨s', h1, h2⟩


/-- A `list.insert` always grows the list by one (the clamped index is in
range). -/
theorem length_pyInsert {α : Type} (l : List α) (n : Nat) (a : α) :
    (pyInsert l n a).length = l.length + 1 := by
  simp [pyInsert, List.length_insertIdx _ _ (min_le_right n l.length)]

/-- Membership in a `list.insert` result. -/
theorem mem_pyInsert {α : Type} (l : List α) (n : Nat) (a x : α) :
    x ∈ pyInsert l n a ↔ x = a ∨ x ∈ l := by
  simp [pyInsert, List.mem_insertIdx (min_le_right n l.length)]

/-- `AoT.insert` on a `Table` value always succeeds, and its result is a
`list.insert` of the (trivia-adjusted) table into the old table list, which
is either untouched or has one element's trivia rewritten (the
newline-prefix fix of items.py:1433-1438). -/
theorem aotInsert_table_shape (ts : List Item) (parsed : Bool) (tv : Trivia) (idx : Int)
    (c : ContainerS) (t : Trivia) (ae st : Bool) (n dn : Option String) :
    ∃ TS idxN vt2, aotInsert ts parsed tv idx (.table c t ae st n dn) =
        .ok (pyInsert TS idxN (.table c vt2 ae st n dn))
      ∧ (TS = ts ∨ ∃ j nt f, ts[j]? = some nt ∧ TS = ts.set j (nt.withTrivia f)) := by
  simp only [aotInsert]
  repeat' split
  all_goals first
    | (refine ⟨_, _, _, rfl, Or.inl rfl⟩)
    | (refine ⟨_, _, _, rfl, Or.inr ⟨_, _, _, ?_, rfl⟩⟩; assumption)

/-- `AoT.insert` of a `Table` into an all-`Table` list yields an
all-`Table` list one longer. -/
theorem aotInsert_table_ok (ts : List Item) (parsed : Bool) (tv : Trivia) (idx : Int)
    (c : ContainerS) (t : Trivia) (ae st : Bool) (n dn : Option String) (ts2 : List Item)
    (hts : ∀ x ∈ ts, x.isTable = true)
    (h : aotInsert ts parsed tv idx (.table c t ae st n dn) = .ok ts2) :
    ts2.length = ts.length + 1 ∧ ∀ x ∈ ts2, x.isTable = true := by
  obtain ⟨TS, idxN, vt2, heq, hTS⟩ := aotInsert_table_shape ts parsed tv idx c t ae st n dn
  rw [heq] at h
  injection h with h
  subst h
  have hlen : TS.length = ts.length := by
    rcases hTS with rfl | ⟨j, nt, f, hj, rfl⟩
    · rfl
    · exact List.length_set ts j _
  refine ⟨by rw [length_pyInsert, hlen], ?_⟩
  intro x hx
  rw [mem_pyInsert] at hx
  rcases hx with rfl | hx
  · rfl
  · rcases hTS with rfl | ⟨j, nt, f, hj, rfl⟩
    · exact hts x hx
    · rcases List.mem_or_eq_of_mem_set hx with hmem | rfl
      · exact hts x hmem
      · rw [withTrivia_isTable]
        exact hts nt (List.getElem?_mem hj)

/-- The AoT branch of the list coercion turns every (mapping) element into
a `Table`: the accumulated table list grows by exactly one `Table` per
element. -/
theorem aotLoop_spec (fuel : Nat) (l : List HostVal) (ts ts2 : List Item)
    (hts : ∀ x ∈ ts, x.isTable = true)
    (h : aotLoop fuel ts l = .ok ts2) :
    ts2.length = ts.length + l.length ∧ ∀ x ∈ ts2, x.isTable = true := by
  induction fuel generalizing ts l with
  | zero => simp [aotLoop] at h
  | succ f ih =>
    match l with
    | [] =>
      simp only [aotLoop] at h
      injection h with h
      subst h
      exact ⟨rfl, hts⟩
    | .hdict d :: rest =>
      simp only [aotLoop] at h
      cases hd : dictLoop f false false false (emptyContainer false) Trivia.mkDefault
          (sortedEntries d) with
      | error e => simp only [hd] at h; cases h
      | ok c =>
        simp only [hd] at h
        cases hins : aotInsert ts false ⟨"", "", "", ""⟩ ts.length
            (.table c Trivia.mkDefault true false none none) with
        | error e => simp only [hins] at h; cases h
        | ok ts1 =>
          simp only [hins] at h
          obtain ⟨hl1, ht1⟩ :=
            aotInsert_table_ok ts false ⟨"", "", "", ""⟩ ts.length c Trivia.mkDefault
              true false none none ts1 hts hins
          obtain ⟨hl2, ht2⟩ := ih rest ts1 ht1 h
          refine ⟨?_, ht2⟩
          rw [hl2, hl1]
          simp [Nat.add_assoc, Nat.add_comm 1 rest.length]
    | .hbool b :: rest => simp [aotLoop] at h
    | .hint n :: rest => simp [aotLoop] at h
    | .hstr s :: rest => simp [aotLoop] at h
    | .hlist l2 :: rest => simp [aotLoop] at h

/-- The public elements of an `Array` value list: everything that is not
`Whitespace` or `Comment` (the `self._index_map` view, items.py:859). -/
def arrElems (vl : List Item) : List Item :=
  vl.filter (fun x => !(x.isWs || x.isComment))

/-- Inserting a whitespace item anywhere leaves the public elements
unchanged. -/
theorem arrElems_wsInsert (vl : List Item) (p : Nat) (s : String) :
    arrElems (vl.take p ++ [.ws s false] ++ vl.drop p) = arrElems vl := by
  simp only [arrElems, List.filter_append]
  have h1 : List.filter (fun x => !(x.isWs || x.isComment)) [Item.ws s false] = [] := rfl
  rw [h1, List.append_nil, ← List.filter_append, List.take_append_drop]

/-- Helper: the empty value list has no public elements. -/
theorem arrElems_nil : arrElems [] = [] := rfl

/-- Public elements distribute over append. -/
theorem arrElems_append (l1 l2 : List Item) :
    arrElems (l1 ++ l2) = arrElems l1 ++ arrElems l2 := by
  simp [arrElems, List.filter_append]

/-- A leading whitespace item is not a public element. -/
theorem arrElems_ws_cons (s : String) (f : Bool) (l : List Item) :
    arrElems (.ws s f :: l) = arrElems l := by
  simp [arrElems, List.filter_cons, Item.isWs, Item.isComment]

/-- A leading whitespace/comment item is not a public element. -/
theorem arrElems_cons_skip (x : Item) (l : List Item) (h : (x.isWs || x.isComment) = true) :
    arrElems (x :: l) = arrElems l := by
  simp only [arrElems, List.filter_cons, h, Bool.not_true]
  rfl

/-- A leading non-whitespace non-comment item is a public element. -/
theorem arrElems_cons_keep (x : Item) (l : List Item) (h1 : x.isWs = false)
    (h2 : x.isComment = false) :
    arrElems (x :: l) = x :: arrElems l := by
  simp [arrElems, List.filter_cons, h1, h2]

/-- The trailing comma-insertion step of `Array.insert` (items.py:984-991)
never changes the public elements: it only ever adds a `","` whitespace. -/
theorem arrElems_commaIf (vl : List Item) (idx pl : Nat) (target : List Item)
    (h : arrElems vl = target) :
    arrElems (if 0 < pl then
        match commaScanN vl idx with
        | some p => vl.take p ++ [.ws "," false] ++ vl.drop p
        | none => vl
      else vl) = target := by
  split
  · cases commaScanN vl idx with
    | some p => exact (arrElems_wsInsert vl p ",").trans h
    | none => exact h
  · exact h

/-- A `list.insert` at position `len(l)` appends. -/
theorem pyInsertInt_length {α : Type} (l : List α) (x : α) :
    pyInsertInt l (l.length : Int) x = l ++ [x] := by
  have h0 : ¬((l.length : Int) < 0) := by omega
  simp [pyInsertInt, h0, List.insertIdx_length_self]

/-- `Array.insert` at the end with a non-whitespace, non-comment item
succeeds, appends the item to the public elements, and appends its Python
value to the public list (items.py:943-991: the whitespace-inheritance step
only splices whitespace items around the new element). -/
theorem arrayInsertIt_end (a : AState) (it : Item)
    (hw : it.isWs = false) (hc : it.isComment = false) :
    ∃ a2, arrayInsertIt a a.publ.length it = .ok a2
      ∧ arrElems a2.value = arrElems a.value ++ [it]
      ∧ a2.publ = a.publ ++ [it.pyValue] := by
  obtain ⟨val, publ⟩ := a
  have h0 : ¬((publ.length : Int) < 0) := by omega
  rcases List.eq_nil_or_concat val with rfl | ⟨L, b, hval⟩
  · simp only [arrayInsertIt, hw, hc, h0, pyInsertInt_length, Bool.or_self, Bool.not_false,
      if_true, if_false, Int.toNat_natCast, Nat.lt_irrefl, ite_false, ite_true,
      List.length_nil, commaScanN]
    refine ⟨_, rfl, ?_, rfl⟩
    split
    · rw [show List.take 0 (List.take 0 ([] : List Item) ++ [it] ++ List.drop 0 []) ++
          [Item.ws "," false] ++
          List.drop 0 (List.take 0 ([] : List Item) ++ [it] ++ List.drop 0 []) =
          [Item.ws "," false, it] by simp]
      rw [arrElems_ws_cons, arrElems_cons_keep it [] hw hc]
      simp [arrElems_nil]
    · rw [show List.take 0 ([] : List Item) ++ [it] ++ List.drop 0 ([] : List Item) = [it]
          by simp]
      rw [arrElems_cons_keep it [] hw hc]
      simp [arrElems_nil]
  · subst hval
    simp only [List.concat_eq_append]
    simp only [arrayInsertIt, hw, hc, h0, pyInsertInt_length, Bool.or_self, Bool.not_false,
      Bool.false_and, if_true, if_false, Int.toNat_natCast, Nat.lt_irrefl, ite_false, ite_true,
      List.length_append, List.length_cons, List.length_nil, Nat.add_sub_cancel,
      List.getElem?_concat_length, List.take_left, List.drop_left]
    rw [if_pos (show 0 < L.length + (0 + 1) by omega)]
    cases hbm : (b.isWs && !(match b with | Item.ws s _ => s.contains ',' | _ => false)) with
    | true =>
      have hbw : b.isWs = true := by
        have h2 := hbm
        simp only [Bool.and_eq_true] at h2
        exact h2.1
      rw [if_pos rfl, if_neg (show ¬(false = true) by simp)]
      dsimp only
      rw [List.take_left, List.drop_left]
      refine ⟨_, rfl, ?_, rfl⟩
      refine arrElems_commaIf _ _ _ _ ?_
      simp only [arrElems_append]
      rw [arrElems_ws_cons, arrElems_cons_keep it [] hw hc,
        arrElems_cons_skip b [] (by simp [hbw])]
      simp [arrElems_nil]
    | false =>
      rw [if_neg (show ¬(false = true) by simp)]
      dsimp only
      rw [show L.length + (0 + 1) = (L ++ [b]).length by simp, List.take_length,
        List.drop_length, List.append_nil]
      refine ⟨_, rfl, ?_, rfl⟩
      refine arrElems_commaIf _ _ _ _ ?_
      simp only [arrElems_append]
      rw [arrElems_ws_cons, arrElems_cons_keep it [] hw hc]
      simp [arrElems_nil]

/-- The host-value coercion never produces a `Whitespace` or `Comment`
item. -/
theorem itemOf_not_wsComment (fuel : Nat) (pia : Bool) (v : HostVal) (it : Item)
    (h : itemOf fuel pia v = .ok it) : it.isWs = false ∧ it.isComment = false := by
  cases fuel with
  | zero => simp [itemOf] at h
  | succ f =>
    cases v with
    | hbool b => simp [itemOf] at h; subst h; exact ⟨rfl, rfl⟩
    | hint n => simp [itemOf] at h; subst h; exact ⟨rfl, rfl⟩
    | hstr s => simp [itemOf] at h; subst h; exact ⟨rfl, rfl⟩
    | hdict d =>
      simp only [itemOf] at h
      split at h <;> split at h <;> simp_all <;> (subst h; exact ⟨rfl, rfl⟩)
    | hlist l =>
      simp only [itemOf] at h
      split at h <;> split at h <;> simp_all <;> (subst h; exact ⟨rfl, rfl⟩)

/-- The Array branch of the list coercion appends one public element per
host value, and mapping elements become `InlineTable(..., new=True)`
items. -/
theorem arrLoop_spec (fuel : Nat) (l : List HostVal) (a a2 : AState)
    (h : arrLoop fuel a l = .ok a2) :
    ∃ newElems, arrElems a2.value = arrElems a.value ++ newElems
      ∧ List.Forall₂ (fun v x => v.isDict = true →
          ∃ c, x = Item.inlineTable c Trivia.mkDefault true) l newElems := by
  induction fuel generalizing a l with
  | zero => simp [arrLoop] at h
  | succ f ih =>
    match l with
    | [] =>
      simp only [arrLoop] at h
      injection h with h
      subst h
      exact ⟨[], by simp, List.Forall₂.nil⟩
    | .hdict d :: rest =>
      simp only [arrLoop] at h
      cases hdl : dictLoop f true true true (emptyContainer false) Trivia.mkDefault
          (sortedEntries d) with
      | error e => simp only [hdl] at h; cases h
      | ok c =>
        simp only [hdl] at h
        obtain ⟨a1, hins, helems, hpubl⟩ :=
          arrayInsertIt_end a (Item.inlineTable c Trivia.mkDefault true) rfl rfl
        simp only [hins] at h
        obtain ⟨ne, h1, h2⟩ := ih rest a1 h
        refine ⟨Item.inlineTable c Trivia.mkDefault true :: ne, ?_, ?_⟩
        · rw [h1, helems]
          simp
        · exact List.Forall₂.cons (fun _ => ⟨c, rfl⟩) h2
    | .hbool b :: rest =>
      simp only [arrLoop] at h
      cases hio : itemOf f true (HostVal.hbool b) with
      | error e => simp only [hio] at h; cases h
      | ok itv =>
        simp only [hio] at h
        obtain ⟨hw2, hc2⟩ := itemOf_not_wsComment f true _ itv hio
        obtain ⟨a1, hins, helems, hpubl⟩ := arrayInsertIt_end a itv hw2 hc2
        simp only [hins] at h
        obtain ⟨ne, h1, h2⟩ := ih rest a1 h
        refine ⟨itv :: ne, ?_, ?_⟩
        · rw [h1, helems]
          simp
        · exact List.Forall₂.cons (fun hd => by simp [HostVal.isDict] at hd) h2
    | .hint n :: rest =>
      simp only [arrLoop] at h
      cases hio : itemOf f true (HostVal.hint n) with
      | error e => simp only [hio] at h; cases h
      | ok itv =>
        simp only [hio] at h
        obtain ⟨hw2, hc2⟩ := itemOf_not_wsComment f true _ itv hio
        obtain ⟨a1, hins, helems, hpubl⟩ := arrayInsertIt_end a itv hw2 hc2
        simp only [hins] at h
        obtain ⟨ne, h1, h2⟩ := ih rest a1 h
        refine ⟨itv :: ne, ?_, ?_⟩
        · rw [h1, helems]
          simp
        · exact List.Forall₂.cons (fun hd => by simp [HostVal.isDict] at hd) h2
    | .hstr str :: rest =>
      simp only [arrLoop] at h
      cases hio : itemOf f true (HostVal.hstr str) with
      | error e => simp only [hio] at h; cases h
      | ok itv =>
        simp only [hio] at h
        obtain ⟨hw2, hc2⟩ := itemOf_not_wsComment f true _ itv hio
        obtain ⟨a1, hins, helems, hpubl⟩ := arrayInsertIt_end a itv hw2 hc2
        simp only [hins] at h
        obtain ⟨ne, h1, h2⟩ := ih rest a1 h
        refine ⟨itv :: ne, ?_, ?_⟩
        · rw [h1, helems]
          simp
        · exact List.Forall₂.cons (fun hd => by simp [HostVal.isDict] at hd) h2
    | .hlist l2 :: rest =>
      simp only [arrLoop] at h
      cases hio : itemOf f true (HostVal.hlist l2) with
      | error e => simp only [hio] at h; cases h
      | ok itv =>
        simp only [hio] at h
        obtain ⟨hw2, hc2⟩ := itemOf_not_wsComment f true _ itv hio
        obtain ⟨a1, hins, helems, hpubl⟩ := arrayInsertIt_end a itv hw2 hc2
        simp only [hins] at h
        obtain ⟨ne, h1, h2⟩ := ih rest a1 h
        refine ⟨itv :: ne, ?_, ?_⟩
        · rw [h1, helems]
          simp
        · exact List.Forall₂.cons (fun hd => by simp [HostVal.isDict] at hd) h2

/-- **C6** (amended): the list coercion `item(v)` (items.py:73-99) returns
an AoT whose entries are all Tables, one per element, when `v` is
*non-empty* and every element is a mapping; otherwise — the empty list
included, because the guard at items.py:74 is `if value and all(...)` — it
returns an Array whose public elements correspond one-to-one to the
elements of `v`, with every mapping element coerced to an
`InlineTable(..., new=True)`. -/
theorem c6_amended (fuel : Nat) (l : List HostVal) (it : Item)
    (h : itemOf fuel false (.hlist l) = .ok it) :
    if !l.isEmpty && l.all HostVal.isDict then
      ∃ ts, it = .aot ts none false ⟨"", "", "", ""⟩
        ∧ ts.length = l.length ∧ ∀ x ∈ ts, x.isTable = true
    else
      ∃ vl publ, it = .arrayItem vl publ Trivia.mkDefault false
        ∧ List.Forall₂ (fun v x => v.isDict = true →
            ∃ c, x = Item.inlineTable c Trivia.mkDefault true) l (arrElems vl) := by
  cases fuel with
  | zero => simp [itemOf] at h
  | succ f =>
    simp only [itemOf] at h
    split at h
    · rename_i hcond
      rw [if_pos hcond]
      cases hal : aotLoop f [] l with
      | error e => simp only [hal] at h; cases h
      | ok ts =>
        simp only [hal] at h
        injection h with h
        subst h
        obtain ⟨hlen, hts⟩ := aotLoop_spec f l [] ts (by intro x hx; cases hx) hal
        exact ⟨ts, rfl, by simpa using hlen, hts⟩
    · rename_i hcond
      rw [if_neg hcond]
      cases har : arrLoop f ⟨[], []⟩ l with
      | error e => simp only [har] at h; cases h
      | ok a2 =>
        simp only [har] at h
        injection h with h
        subst h
        obtain ⟨ne, h1, h2⟩ := arrLoop_spec f l ⟨[], []⟩ a2 har
        refine ⟨a2.value, a2.publ, rfl, ?_⟩
        rw [h1]
        simpa using h2

/-- The coercion of the one-element list `[{}]`: an AoT holding a single
fresh `Table`. -/
def c6item : Item :=
  .aot [.table (emptyContainer false) Trivia.mkDefault true false none none] none false
    ⟨"", "", "", ""⟩

/-- Witness for `c6_amended` at the concrete input `[{}]`. -/
theorem c6_amended_witness :
    ∃ ts, c6item = .aot ts none false ⟨"", "", "", ""⟩
      ∧ ts.length = 1 ∧ ∀ x ∈ ts, x.isTable = true := by
  have hm := c6_amended 3 [.hdict []] c6item rfl
  simpa using hm

/-- C6 counterexample: the guard at items.py:74 is `if value and all(...)`,
so the *empty* list is coerced to an `Array`, not an `AoT` — the claim's
"every element is a mapping, including the empty list" fails there. -/
theorem c6_counterexample :
    itemOf 2 false (.hlist []) = .ok (.arrayItem [] [] Trivia.mkDefault false)
    ∧ Item.isAot (.arrayItem [] [] Trivia.mkDefault false) = false := by
  refine ⟨rfl, rfl⟩

end Atoml
